import Mathlib

/-!
Verification of the saveOurShores cleanup pipeline (`cleanup.py`).

This file gives a shallow embedding of the schema-reconciliation pipeline of
`cleanup.py` (orientation, column renaming, column merging, site-name
canonicalization, per-sheet reading and the multi-sheet merge) and proves or
refutes the specified properties about it.

Modelling conventions:
* a spreadsheet cell is a `Cell`: an exact rational number (`num`, standing for
  the int/float cells pandas produces), a string (`str`), a parsed timestamp
  (`date`, carrying an abstract rational time key), or a missing value (`nan`,
  covering `NaN`/`NaT`/`None`);
* a dataframe `DF` is the ordered list of its columns, each a label paired
  with the column's cells; row indices are positional (the pipeline only ever
  uses the default `RangeIndex`, and ends with `reset_index(drop=True)`);
* a column has pandas dtype `object` exactly when it contains a string cell
  (`isObjectDtype`); the pipeline's inputs (plain Excel reads) produce object
  dtype in exactly that case;
* `df[label] = v` on an existing label replaces the first matching column and
  otherwise appends; `df.drop(label, axis=1)` drops every matching column.
  The modelled pipeline never manufactures duplicate labels on the paths the
  theorems traverse;
* Python exceptions that the pipeline can actually raise (`KeyError` from
  indexing a missing column, `AttributeError` from `.strip()` on a non-string
  or from calling `sort_values` on `None`) are modelled with `Except`.
-/

/-- A single spreadsheet cell value. -/
inductive Cell where
  | num (q : ℚ)
  | str (s : String)
  | date (t : ℚ)
  | nan
deriving DecidableEq, Repr

/-- Errors the modelled pipeline can raise.  `keyError c` is pandas'
`KeyError: c` from indexing a missing column; `attributeError m` covers
`.strip()` on a non-string and `NoneType.sort_values`.  `schemaError` is
modelled from the spec: the spec's typed `SchemaError` for a missing required
column; `cleanup.py` itself never raises it (no such class exists in the
source), it is declared only so that statements about it can be expressed. -/
inductive CleanupErr where
  | keyError (col : String)
  | attributeError (msg : String)
  | schemaError (msg : String)
deriving DecidableEq, Repr

/-- Numeric reading of a cell: `num q` is `q`, anything else counts 0.
Used to state row-total conservation. -/
def cellQ : Cell → ℚ
  | .num q => q
  | _ => 0

/-- Is the cell a number? -/
def isNumCell : Cell → Bool
  | .num _ => true
  | _ => false

/-- Is the cell a string? -/
def isStrCell : Cell → Bool
  | .str _ => true
  | _ => false

/-- Is the cell a parsed timestamp? -/
def isDateCell : Cell → Bool
  | .date _ => true
  | _ => false

/-! ## String primitives (Python semantics, over `List Char`) -/

/-- `startsWithL key s`: is `key` a prefix of `s`? -/
def startsWithL : List Char → List Char → Bool
  | [], _ => true
  | _ :: _, [] => false
  | a :: as, b :: bs => a == b && startsWithL as bs

/-- `containsSub key s`: does `key` occur as a contiguous substring of `s`?
This is Python's `s.find(key) >= 0` (and `key in s`). -/
def containsSub (key : List Char) : List Char → Bool
  | [] => key.isEmpty
  | c :: rest => startsWithL key (c :: rest) || containsSub key rest

theorem startsWithL_length {key s : List Char} (h : startsWithL key s = true) :
    key.length ≤ s.length := by
  induction key generalizing s with
  | nil => exact Nat.zero_le _
  | cons a as ih =>
    cases s with
    | nil => simp [startsWithL] at h
    | cons b bs =>
      simp only [startsWithL, Bool.and_eq_true] at h
      simpa [List.length_cons] using Nat.succ_le_succ (ih h.2)

/-- Python's `s.replace(old, new)`: replace every non-overlapping occurrence
of `old`, scanning left to right.  (Guarded against the empty pattern, which
the pipeline never uses.) -/
def replaceAllL (old new : List Char) (s : List Char) : List Char :=
  match s with
  | [] => []
  | c :: rest =>
    if h : startsWithL old (c :: rest) = true ∧ old ≠ [] then
      new ++ replaceAllL old new ((c :: rest).drop old.length)
    else
      c :: replaceAllL old new rest
termination_by s.length
decreasing_by
  · have hlen : old.length ≤ (c :: rest).length := startsWithL_length h.1
    have hpos : 0 < old.length := List.length_pos.mpr h.2
    simp only [List.length_drop]
    omega
  · simp [List.length_cons]

/-- One step of Python's `str.title()`: a cased character is uppercased when
the previous character was not alphabetic, lowercased otherwise. -/
def titleGo (prevAlpha : Bool) : List Char → List Char
  | [] => []
  | c :: rest =>
    if c.isAlpha then
      (if prevAlpha then c.toLower else c.toUpper) :: titleGo true rest
    else
      c :: titleGo false rest

/-- Python's `str.title()`. -/
def titleL (s : List Char) : List Char := titleGo false s

/-- Python's `str.strip()` (default whitespace). -/
def stripL (s : List Char) : List Char :=
  ((s.dropWhile Char.isWhitespace).reverse.dropWhile Char.isWhitespace).reverse

/-- Value of a digit character. -/
def digitVal (c : Char) : Nat := c.toNat - '0'.toNat

/-- Parse a non-empty all-digit string as a natural number. -/
def parseDigits : List Char → Option Nat
  | [] => none
  | cs =>
    if cs.all Char.isDigit then
      some (cs.foldl (fun acc c => acc * 10 + digitVal c) 0)
    else none

/-- Model of `pd.to_numeric` applied to one string: an optional sign, then a
decimal literal `digits[.digits]`.  Anything else fails to parse. -/
def parseNumQ (s : String) : Option ℚ :=
  let cs := stripL s.data
  let signed : ℚ × List Char :=
    match cs with
    | '-' :: r => (-1, r)
    | '+' :: r => (1, r)
    | _ => (1, cs)
  let intPart := signed.2.takeWhile (fun c => !(c == '.'))
  let rest := signed.2.dropWhile (fun c => !(c == '.'))
  match rest with
  | [] => (parseDigits intPart).map (fun n => signed.1 * (n : ℚ))
  | '.' :: frac =>
    if intPart.isEmpty && frac.isEmpty then none
    else if intPart.all Char.isDigit && frac.all Char.isDigit then
      some (signed.1 * ((intPart.foldl (fun acc c => acc * 10 + digitVal c) 0 : ℚ) +
        (frac.foldl (fun acc c => acc * 10 + digitVal c) 0 : ℚ) / ((10 : ℚ) ^ frac.length)))
    else none
  | _ => none

/-- Model of `pd.to_datetime` applied to one string: an ISO `YYYY-MM-DD`
literal is recognized and encoded as `y*10000 + m*100 + d`; other strings
fail.  (`pd.to_datetime` accepts more formats; the theorems only rely on
parseable-versus-unparseable, so the exact recognized language is immaterial.) -/
def parseDateQ (s : String) : Option ℚ :=
  match (stripL s.data).splitOn '-' with
  | [ys, ms, ds] =>
    match parseDigits ys, parseDigits ms, parseDigits ds with
    | some y, some m, some d =>
      if 1 ≤ m && m ≤ 12 && 1 ≤ d && d ≤ 31 then
        some ((y * 10000 + m * 100 + d : Nat) : ℚ)
      else none
    | _, _, _ => none
  | _ => none

/-! ## Dataframes -/

/-- A dataframe: ordered columns, each a label (itself a cell value: labels
are ordinary strings after `read_excel`, but transposition turns arbitrary
cell values into labels) with the column's cells. -/
structure DF where
  cols : List (Cell × List Cell)
deriving DecidableEq, Repr

/-- The column labels, in order (`list(df)`). -/
def DF.labels (df : DF) : List Cell := df.cols.map Prod.fst

/-- `label in df.columns`. -/
def DF.hasCol (df : DF) (l : Cell) : Bool := df.cols.any (fun c => c.1 == l)

/-- `df[label]`: the first column with the given label, if any. -/
def DF.getCol (df : DF) (l : Cell) : Option (List Cell) :=
  (df.cols.find? (fun c => c.1 == l)).map Prod.snd

/-- Replace the cells of the first column labelled `l`. -/
def setColGo (l : Cell) (v : List Cell) : List (Cell × List Cell) → List (Cell × List Cell)
  | [] => []
  | c :: rest => if c.1 == l then (c.1, v) :: rest else c :: setColGo l v rest

/-- `df[label] = v`: overwrite the existing column, else append a new one. -/
def DF.setCol (df : DF) (l : Cell) (v : List Cell) : DF :=
  if df.hasCol l then ⟨setColGo l v df.cols⟩ else ⟨df.cols ++ [(l, v)]⟩

/-- `df.drop(label, axis=1)`: drop every column with that label. -/
def DF.dropColAll (df : DF) (l : Cell) : DF :=
  ⟨df.cols.filter (fun c => !(c.1 == l))⟩

/-- The number of rows, read off the first column (the pipeline's frames are
rectangular; see `DF.Rect`). -/
def DF.nrows (df : DF) : Nat :=
  match df.cols with
  | [] => 0
  | c :: _ => c.2.length

/-- Rectangularity: every column has length `n`. -/
def DF.Rect (df : DF) (n : ℕ) : Prop := ∀ c ∈ df.cols, c.2.length = n

instance (df : DF) (n : ℕ) : Decidable (df.Rect n) := by
  unfold DF.Rect; infer_instance

/-- Keep the elements whose row position satisfies `keep`, positions counted
from `i`. -/
def maskFilter (keep : Nat → Bool) : Nat → List Cell → List Cell
  | _, [] => []
  | i, v :: r => if keep i then v :: maskFilter keep (i + 1) r else maskFilter keep (i + 1) r

/-- Drop the rows whose position fails `keep` (the shape of every
`df.dropna(...)` in the pipeline). -/
def DF.filterRows (df : DF) (keep : Nat → Bool) : DF :=
  ⟨df.cols.map (fun c => (c.1, maskFilter keep 0 c.2))⟩

/-- The cell at column `l`, row `i` (missing column or row reads as `nan`). -/
def cellAt (df : DF) (l : Cell) (i : Nat) : Cell :=
  ((df.getCol l).getD []).getD i .nan

/-- Does the column contain a string, i.e. is its pandas dtype `object`? -/
def isObjectDtype (col : List Cell) : Bool := col.any isStrCell

/-! ## `cleanup.py`: module constant and `make_numeric_cols_numeric_again` -/

/-- `NONNUMERIC_COLS` (cleanup.py lines 9-19). -/
def NONNUMERIC_COLS : List String :=
  ["Date",
   "Data Collection",
   "Duration (Hrs)",
   "County/City",
   "Cleanup Site",
   "Cleaned Size (Sq Miles)",
   "Adult Volunteers",
   "Youth Volunteers",
   "Trash (lbs)",
   "Recycling (lbs)",
   "Type Of Cleanup"]

/-- One cell under `pd.to_numeric(col, errors='coerce')`: numbers pass
through, numeric-looking strings parse, everything else (including
timestamps) coerces to `NaN` — not to 0. -/
def toNumericCoerce (v : Cell) : Cell :=
  match v with
  | .num q => .num q
  | .str s => match parseNumQ s with | some q => .num q | none => .nan
  | .date _ => .nan
  | .nan => .nan

/-- `make_numeric_cols_numeric_again` (lines 49-59): add any missing
`NONNUMERIC_COLS` as all-`NaN` columns, then rebuild the frame as the
non-numeric block (in `NONNUMERIC_COLS` order) followed by every other
column coerced with `pd.to_numeric(..., errors='coerce')`. -/
def make_numeric_cols_numeric_again (df : DF) : DF :=
  let df1 := NONNUMERIC_COLS.foldl
    (fun d c => if d.hasCol (.str c) then d else d.setCol (.str c) (List.replicate d.nrows .nan)) df
  let nonnum := NONNUMERIC_COLS.map (fun c => (Cell.str c, (df1.getCol (.str c)).getD []))
  let rest := (df1.cols.filter (fun c => !(NONNUMERIC_COLS.any (fun s => Cell.str s == c.1)))).map
    (fun c => (c.1, c.2.map toNumericCoerce))
  ⟨nonnum ++ rest⟩

/-! ## `orient_data` (lines 62-103) -/

/-- Is the label a string containing the spreadsheet library's placeholder
marker `'Unnamed'` for a blank header cell? -/
def isUnnamedLabel (l : Cell) : Bool :=
  match l with
  | .str s => containsSub "Unnamed".data s.data
  | _ => false

/-- Positions (from `i`) of the `NaN` cells of a column. -/
def nanIdxList : Nat → List Cell → List Nat
  | _, [] => []
  | i, v :: r => if v == .nan then i :: nanIdxList (i + 1) r else nanIdxList (i + 1) r

/-- Lines 78-80: when the first column has more than one `NaN` cell, the
second one is overwritten with the literal `'Other:'`. -/
def injectOther (v0 : List Cell) : List Cell :=
  match nanIdxList 0 v0 with
  | _ :: j :: _ => v0.set j (.str "Other:")
  | _ => v0

/-- Lines 82-83: `set_index` on the first column, then transpose.  The first
column's cells become the labels; each old row becomes a column whose cells
run over the remaining old columns in order. -/
def transposeDF (v0 : List Cell) (rest : List (Cell × List Cell)) : DF :=
  ⟨(List.range v0.length).map (fun i => (v0.getD i .nan, rest.map (fun c => c.2.getD i .nan)))⟩

/-- Lines 85-86: drop the columns whose label is `NaN` (guarded, exactly as
in the source, on such a label existing). -/
def dropNanLabelCols (t : DF) : DF :=
  if t.labels.any (fun l => l == .nan) then ⟨t.cols.filter (fun c => !(c.1 == .nan))⟩ else t

/-- Line 88: `dropna(how='all')` — drop the rows all of whose cells are `NaN`. -/
def dropAllNanRows (t : DF) : DF :=
  t.filterRows (fun i => !(t.cols.all (fun c => c.2.getD i .nan == .nan)))

/-- Lines 90-96: position of `'Other:'` (or, failing that, the special-cased
`'Other 1- Wine Cork'`) among the labels. -/
def otherIdx (t : DF) : Option Nat :=
  match t.labels.findIdx? (fun l => l == .str "Other:") with
  | some k => some k
  | none => t.labels.findIdx? (fun l => l == .str "Other 1- Wine Cork")

/-- `fillna(0)` on one cell. -/
def fillNan0 (v : Cell) : Cell := if v == .nan then .num 0 else v

/-- Lines 97-102: sum every column from the catch-all label to the end
(`fillna(0)`, then `sum(axis=1, numeric_only=True)`, which skips
object-dtype columns) into a new `'Other Sum'` column and drop the summed
columns (selection and drop are by label, as in the source). -/
def collapseOther (t : DF) : DF :=
  match otherIdx t with
  | none => t
  | some k =>
    let otherLabels := t.labels.drop k
    let selected := t.cols.filter (fun c => otherLabels.contains c.1)
    let numSel := selected.filter (fun c => !(isObjectDtype (c.2.map fillNan0)))
    let sumCol := (List.range t.nrows).map (fun i =>
      Cell.num (numSel.foldl (fun acc c => acc + cellQ (fillNan0 (c.2.getD i .nan))) 0))
    let t2 := t.setCol (.str "Other Sum") sumCol
    ⟨t2.cols.filter (fun c => !(otherLabels.contains c.1))⟩

/-- `orient_data` (lines 62-103): when some label carries the placeholder
marker, the sheet is taken to be transposed and is fixed up; otherwise it is
returned unchanged. -/
def orient_data (df : DF) : DF :=
  if df.labels.any isUnnamedLabel then
    match df.cols with
    | [] => df
    | (_, v0) :: rest =>
      collapseOther (dropAllNanRows (dropNanLabelCols (transposeDF (injectOther v0) rest)))
  else df

/-! ## `rename_data` (lines 106-155) -/

/-- Python's `str(x)` on a cell (labels are stringified before renaming;
non-string labels only arise from transposition and the claims' inputs keep
them strings, so the numeric renderings here are never load-bearing). -/
def cellToString : Cell → String
  | .str s => s
  | .num q => toString q
  | .date t => toString t
  | .nan => "nan"

/-- The rename dictionary of lines 115-155, in source order. -/
def renamePairs : List (String × String) :=
  [("Date Of Cleanup Event/Fecha", "Date"),
   ("Cleanup Date", "Date"),
   ("Cleanup Site/Sitio De Limpieza", "Cleanup Site"),
   ("Estimated Size Of Location Cleaned (Sq Miles)", "Cleaned Size (Sq Miles)"),
   ("Cleanup Area", "Cleaned Size (Sq Miles)"),
   ("Data Collection Method", "Data Collection"),
   ("Total Cleanup Duration (Hrs)", "Duration (Hrs)"),
   ("# Of Volunteers", "Adult Volunteers"),
   ("Pounds Of Trash Collected", "Trash (lbs)"),
   ("Pounds Of Trash", "Trash (lbs)"),
   ("Pounds Of Recycle Collected", "Recycling (lbs)"),
   ("Pounds Of Recycling", "Recycling (lbs)"),
   ("County/City Where The Event Was Held?", "County/City"),
   ("County", "County/City"),
   ("City/County", "County/City"),
   ("Appliances (Refrigerators, Washers, Etc.)", "Appliances"),
   ("Beverage Bottles (Glass)", "Glass Bottles"),
   ("Beverages Sachets/Pouches", "Beverage Pouches"),
   ("Beverages Sachets", "Beverage Pouches"),
   ("Toys And Beach Accessories", "Beach Gear"),
   ("Beach Chairs, Toys Umbrellas", "Beach Gear"),
   ("Balloons Or Ribbon", "Balloons"),
   ("Bandaids Or Bandages", "Bandaids"),
   ("Bikes Or Bike Parts", "Bikes"),
   ("Clothes, Cloth", "Clothes"),
   ("Clothes Or Towels", "Clothes"),
   ("Fireworkds", "Fireworks"),
   ("Footwear (Shoes/Slippers)", "Footwear"),
   ("Shoes", "Footwear"),
   ("Glass Pieces And Chunks", "Glass Pieces"),
   ("Pieces And Chunks", "Glass Pieces"),
   ("Polystyrene Foodware (Foam)", "Polystyrene Foodware"),
   ("Personal Protective Equipment (Masks, Gloves)", "PPE"),
   ("Personal Protective Equipment", "PPE"),
   ("Lids (Plastic)", "Plastic Lids"),
   ("Rope (1 Yard/Meter = 1 Piece)", "Rope"),
   ("Utensils (Plastic)", "Utensils"),
   ("Forks, Knives, Spoons", "Utensils"),
   ("Wood Pallets, Pieces And Processed Wood", "Wood Pieces")]

/-- `rename_data` (lines 106-155): title-case every label (`str(x).title()`)
and then apply the rename dictionary. -/
def rename_data (df : DF) : DF :=
  ⟨df.cols.map (fun c =>
    let t := String.mk (titleL (cellToString c.1).data)
    let t := match renamePairs.find? (fun p => p.1 == t) with
      | some p => p.2
      | none => t
    (Cell.str t, c.2))⟩

/-! ## `_add_cols` / `merge_columns` (lines 158-388) -/

/-- Line 178-179: `col.apply(lambda x: 0 if isinstance(x, str) else x)`. -/
def zeroStrings (col : List Cell) : List Cell :=
  col.map (fun v => match v with | .str _ => .num 0 | w => w)

/-- Elementwise `+` on cells: numbers add; any `NaN` operand propagates
(`NaN + x = NaN` in pandas).  The pipeline only ever adds number/`NaN`
cells: string cells have been zeroed (`zeroStrings`) beforehand, so the
catch-all `NaN` for the remaining type mixes is never reached. -/
def Cell.add : Cell → Cell → Cell
  | .num a, .num b => .num (a + b)
  | _, _ => .nan

/-- The per-source half of `_add_cols` (lines 173-181): a source column
present in the entry-time label list `existing` (and distinct from the
target) is string-zeroed if object-dtype, added elementwise into the target,
and dropped.  The `none` fallback covers a source in `existing` that is no
longer present; the actual call sites have pairwise-distinct sources, so it
is unreachable there (the source itself would raise `KeyError`). -/
def addApply (target : String) (d : DF) (s : String) (scol : List Cell) : DF :=
  let scol := if isObjectDtype scol then zeroStrings scol else scol
  let tcol := (d.getCol (.str target)).getD []
  (d.setCol (.str target) (List.zipWith Cell.add tcol scol)).dropColAll (.str s)

def addStep (existing : List Cell) (target : String) (d : DF) (s : String) : DF :=
  if existing.contains (.str s) && !(s == target) then
    match d.getCol (.str s) with
    | none => d
    | some scol => addApply target d s scol
  else d

/-- The target-creation half of `_add_cols` (lines 166-172). -/
def addColsInit (df : DF) (target : String) : DF :=
  if !(df.labels.contains (.str target)) then
    df.setCol (.str target) (List.replicate df.nrows (.num 0))
  else if isObjectDtype ((df.getCol (.str target)).getD []) then
    df.setCol (.str target) (List.replicate df.nrows (.num 0))
  else df

/-- `_add_cols` (lines 158-181): the entry-time label list is captured once
(`existing_cols = list(sos_data)` in the source) and the per-source steps
fold over it. -/
def add_cols (df : DF) (target : String) (srcs : List String) : DF :=
  srcs.foldl (addStep df.labels target) (addColsInit df target)

/-- The 22 `_add_cols` calls of `merge_columns` (lines 184-388), in source
order, with the source strings verbatim (including trailing spaces and
typos). -/
def mergeSpecs : List (String × List String) :=
  [("6-Pack Holders",
    ["6-Pack Holders", "Plastic Six-Pack Rings", "6Ppack Holders"]),
   ("Plastic Bags",
    ["Shopping Bags", "Other Plastic Bags", "Plastic Shopping Bags",
     "Plastic Bags (Grocery, Shopping)", "Plastic Bags (Trash) ",
     "Plastic Bags (Ziplock, Snack)", "Grocery Bags (Plastic)",
     "Plastic Bags (Trash) New"]),
   ("Bottle Caps",
    ["Bottle Caps", "Bottle Caps And Rings", "Metal Bottle Caps",
     "Plastic Bottle Caps And Rings", "Plastic Bottle Caps Or Rings",
     "Metal Bottle Caps Or Can Pulls", "Metal Can Pulls/Tags",
     "Bottle Caps (Plastic)", "Bottle Caps (Metal)"]),
   ("Paper/Cardboard",
    ["Cardboard", "Paper Cardboard", "Paper Bags",
     "Cardboard, Newspapers, Magazines", "Paper Newpapers/ Magazines",
     "Newspapers/Magazines"]),
   ("Cans",
    ["Beverage Cans", "Beer Cans", "Soda Cans", "Metal Beverage Cans"]),
   ("E-Waste",
    ["E-Waste", "Vape Items/ E-Smoking Devices", "E-Cigarettes"]),
   ("Fishing Gear",
    ["Fishing Gear (Lures, Nets, Etc.)", "Fishing Lines, Nets, Traps, Ropes, Pots",
     "Plastic Fishing Line, Nets, Lures, Floats", "Fishing Net & Pieces",
     "Fishing Line (1 Yard/Meter = 1 Piece)", "Fishing Buoys, Pots & Traps",
     "Metal Fishing Hooks Or Lures", "Styrofoam Buoys Or Floats",
     "Crab Pots", "Fishing Line"]),
   ("Food Containers",
    ["Food Containers, Cups, Plates, Bowls", "Food Containers (Plastic)",
     "Food Containers (Foam)", "Food Containers/ Cups/ Plates/ Bowls",
     "Paper Food Containers, Cups, Plates",
     "Paper Food Containers, Cups, Plates, Bowls",
     "Paper/ Cardboard Food Containers, Cups, Plates, Bowls",
     "Plastic Polystyrene Cups/Plates/Bowls (Foam)",
     "Plastic Cups, Lids/Plates/Utensils", "Polystyrene Foodware",
     "Styrofoam Food Containers", "Styrofoam Cups, Plates And Bowls ",
     "Cups, Plates (Paper)", "Cups, Plates (Plastic)", "Cups, Plates (Foam)",
     "Cups & Plates (Paper)", "Cups & Plates (Plastic)", "Cups & Plates (Foam)",
     "Plastic Cups, Lids, Plates, Utensils",
     "Styrofoam Cups, Plates And Bowls New"]),
   ("Lighters",
    ["Cigarette Lighters", "Disposable Lighters", "Disposable Cigarette Lighters"]),
   ("Metal Nails",
    ["Nails", "Metal Nails"]),
   ("Personal Hygiene",
    ["Personal Hygiene", "Condoms", "Diapers", "Tampons/Tampon Applicators",
     "Tampons/Applicators", "Cotton Bud Sticks (Swabs)", "Feminine Products",
     "Feminine Hygeine Products"]),
   ("Plastic Packaging",
    ["Foam Packaging", "Other Plastic/ Foam Packaging",
     "Other Plastic/Foam Packaging", "Other Packaging (Clean Swell)",
     "Styrofoam Peanuts Or Packing Materials"]),
   ("Plastic Bottles",
    ["Plastic Bottles", "Other Plastic Bottles (Oil, Bleach, Etc.)",
     "Plastic Motor Oil Bottles", "Other Plastic Bottles",
     "Beverage Bottles (Plastic)"]),
   ("Plastic Pieces",
    ["Plastic Pieces", "Polystyrene Pieces", "Foam Dock Pieces",
     "Styrofoam Pieces", "Foam Pieces"]),
   ("Plastic To-Go",
    ["Plastic To-Go Items", "Plastic Polystyrene Food \"To-Go\" Containers",
     "Take Out/Away Containers (Foam)", "Take Out/Away Containers (Plastic)",
     "Take Out/Away (Plastic", "Take Out/Away (Foam)"]),
   ("Food Wrappers",
    ["Plastic Food Wrappers", "Food Wrappers", "Food Wrapper",
     "Plastic Food Wrappers (Ie Chips Or Candy)"]),
   ("Rope",
    ["Rope (Yard Pieces)", "Rope"]),
   ("Tobacco",
    ["Smoking, Tobacco (Not E-Waste Or Butts)", "Tobacco Packaging/Wrap",
     "Smoking, Tobacco, Vape Items (Not Butts)", "Cigarette Box Or Wrappers",
     "Other Tobacco (Packaging, Lighter, Etc.)"]),
   ("Straws/Stirrers",
    ["Straws/Stirrers", "Straws And Stirrers", "Plastic Straws Or Stirrers"]),
   ("Syringes/Needles",
    ["Syringes/Needles", "Syringes Or Needles", "Syringes"]),
   ("Wood Pieces",
    ["Wood Pieces", "Pallets Or Wood"]),
   ("Other",
    ["Other, Small", "Other, Large", "Other Plastics Waste",
     "Other Waste (Metal, Paper, Etc.)", "Other Trash (Clean Swell)",
     "Other Sum"])]

/-- `merge_columns` (lines 184-388): the 22 `_add_cols` calls in order. -/
def merge_columns (df : DF) : DF :=
  mergeSpecs.foldl (fun d p => add_cols d p.1 p.2) df

/-! ## `_rename_site` / `_replace_name` / `merge_sites` (lines 391-545) -/

/-- The `_replace_name` calls of lines 431-445, in source order. -/
def siteReplacements : List (String × String) :=
  [(".", ""),
   (" To ", " - "),
   (" Street", ""),
   (" Ave", ""),
   ("Slr", "SLR"),
   ("Sl River -", "SLR @"),
   ("San Lorenzo River", "SLR"),
   ("San Lorenzo R", "SLR"),
   ("SLR:", "SLR @"),
   ("SLR-", "SLR @"),
   ("SLR At", "SLR @"),
   ("SLR -", "SLR @"),
   ("SLR Cleanup", "SLR")]

/-- The `_rename_site` calls of lines 448-535, in source order; single-string
keys appear as one-element lists (`_rename_site` itself wraps them). -/
def siteRules : List (String × List String) :=
  [("3-Mile State Beach", ["3 Mile", "3-Mile", "Three Mile", "Three-Mile"]),
   ("4-Mile State Beach", ["4 Mile", "4-Mile", "Four Mile"]),
   ("Aptos Creek", ["Aptos"]),
   ("Arroyo Seco", ["Arroyo Seco"]),
   ("Beer Can Beach", ["Beer Can", "Beercan"]),
   ("Blacks Beach", ["Black"]),
   ("Bonny Doon Beach", ["Bonny Doon"]),
   ("Capitola", ["Capitola"]),
   ("Carmel", ["Carmel"]),
   ("Corcoran Lagoon", ["Corcoran", "Corcoron", "26Th"]),
   ("Coyote Creek", ["Coyote Creek"]),
   ("Cowell/Main Beach", ["Cowell", "Coewll", "Santa Cruz Main Beach"]),
   ("Davenport Landing", ["Davenport"]),
   ("Del Monte Beach", ["Del Monte"]),
   ("Elkhorn Slough", ["Elkhorn Slough"]),
   ("Felton Covered Bridge", ["Felton Covered Bridge"]),
   ("Fisherman's Wharf", ["Fisherman"]),
   ("Fort Ord Dunes State Beach", ["Fort Ord", "Ft. Ord", "Ford Ord"]),
   ("Greyhound Rock Beach", ["Greyhound"]),
   ("Harkins Slough", ["Harkin"]),
   ("Heller Park", ["Heller", "Hellyer"]),
   ("Hidden Beach", ["Hidden Beach"]),
   ("Laguna Grande", ["Laguna"]),
   ("Lakeview Campus", ["Lakeview"]),
   ("Leona Creek", ["Leona Creek"]),
   ("Lighthouse Field State Beach", ["Lighthouse", "Its Beach", "It'S Beach"]),
   ("Lompico Creek", ["Lompico Creek"]),
   ("Lover's Point", ["Lover"]),
   ("Manresa State Beach", ["Manresa", "Manressa"]),
   ("Marina State Beach", ["Marina State"]),
   ("McAbee State Beach", ["McAbee", "Mcabee"]),
   ("Mitchell's Cove", ["Mitchell'S Cove"]),
   ("Monterey Bay Photo St.", ["Monterey Bay Photo"]),
   ("Monterey State Beach", ["Monterey State"]),
   ("Moran Lake", ["Moran Lake"]),
   ("Moss Landing", ["Moss Landing"]),
   ("Natural Bridges State Beach", ["Natural Bridges"]),
   ("New Brighton State Beach", ["New Brighton"]),
   ("Ano Nuevo", ["Ano Nuevo"]),
   ("North Del Monte", ["North Del Monte"]),
   ("Pajaro River", ["Pajaro River"]),
   ("Panther State Beach", ["Panther"]),
   ("Palm State Beach", ["Palm"]),
   ("Pleasure Point", ["Pleasure Point"]),
   ("Point Lobos State Natural Reserve", ["Point Lobos"]),
   ("Rio Del Mar State Beach", ["Rio Del Mar"]),
   ("Salinas River State Beach", ["Salinas"]),
   ("San Carlos Beach", ["San Carlos"]),
   ("Sand City Beach", ["Sand City"]),
   ("Santa Cruz Harbor", ["Santa Cruz Harbor"]),
   ("Santa Cruz Wharf", ["Santa Cruz Wharf", "Santa Cruz Municipal Wharf", "Sc Wharf"]),
   ("Seabright State Beach", ["Seabright"]),
   ("Seacliff State Beach", ["Seacliff"]),
   ("Seascape Beach", ["Seascape"]),
   ("Scott's Creek Beach", ["Scott"]),
   ("Shark Fin Cove State Beach", ["Shark Fin"]),
   ("Shark Tooth Beach", ["Shark Tooth", "Sharks Tooth"]),
   ("Sunny Cove Beach", ["Sunny Cove"]),
   ("Sunset State Beach", ["Sunset"]),
   ("Twin Lakes State Beach", ["Twin Lakes"]),
   ("Waddell Creek State Beach", ["Waddell", "Wadell"]),
   ("Watsonville Slough", ["Watsonville Slough"]),
   ("West Struve Slough", ["West Struve Slough"]),
   ("Woodrow State Beach", ["Woodrow"]),
   ("Zmudowski State Beach", ["Zmudowski", "Zumdowski"]),
   ("SLR @ Felton", ["SLR @ Felton"]),
   ("SLR @ Slv Recycling Center", ["SLR @ Slv Recycling"]),
   ("SLR @ The Tannery Arts Center", ["Tannery"]),
   ("SLR @ Felker", ["SLR @ Felker", "SLR/Felke", "San Lorenzo River Levee", "SLR Levee"]),
   ("SLR @ Fillmore", ["SLR @ Fillmore", "SLR @ Filmore"]),
   ("SLR @ Hwy 1", ["SLR @ Hwy 1"]),
   ("SLR @ Laurel", ["SLR @ Laurel"]),
   ("SLR @ Riverside", ["SLR @ Riverside"]),
   ("SLR @ Soquel", ["SLR @ Soquel"]),
   ("SLR @ Water", ["SLR @ Water"])]

/-- `_rename_site` (lines 391-404) applied to one site string: each key is
tried in order against the current value; on a substring hit the whole value
is replaced by the rule's name. -/
def applyRuleKeys (name : String) (keys : List String) (s : List Char) : List Char :=
  keys.foldl (fun cur k => if containsSub k.data cur then name.data else cur) s

/-- The whole per-string canonicalization of `merge_sites`: strip, title-case,
the literal replacements of lines 431-445, then every `_rename_site` rule of
lines 448-535 in order. -/
def canonSite (s : String) : String :=
  let cs := stripL s.data
  let cs := titleL cs
  let cs := siteReplacements.foldl (fun cur p => replaceAllL p.1.data p.2.data cur) cs
  String.mk (siteRules.foldl (fun cur r => applyRuleKeys r.1 r.2 cur) cs)

/-- `canonSite` on a cell (only string cells are ever reached; see
`merge_sites`). -/
def canonSiteCell (v : Cell) : Cell :=
  match v with
  | .str s => .str (canonSite s)
  | w => w

/-- `merge_sites` (lines 412-545).  The very first step,
`apply(lambda s: s.strip())`, raises `AttributeError` as soon as any site
cell is not a string; a missing `'Cleanup Site'` column raises `KeyError`.
Otherwise every site string goes through `canonSite`.  All the later steps
(`str(s).title()`, `replace`, `find`) are per-cell, so the columnwise passes
of the source compose into one per-cell pass. -/
def merge_sites (df : DF) : Except CleanupErr DF :=
  match df.getCol (.str "Cleanup Site") with
  | none => .error (.keyError "Cleanup Site")
  | some col =>
    if col.all isStrCell then
      .ok (df.setCol (.str "Cleanup Site") (col.map canonSiteCell))
    else .error (.attributeError "strip")

/-! ## `read_sheet` (lines 548-576) -/

/-- `replace(0, 1)` on one volunteer-count cell. -/
def replace01 (v : Cell) : Cell := if v == .num 0 then .num 1 else v

/-- `fillna(1)` on one cell. -/
def fillNan1 (v : Cell) : Cell := if v == .nan then .num 1 else v

/-- Elementwise `/` on cells: numbers divide, `NaN` propagates.  In the
pipeline the divisor has been `replace(0,1)`-ed and `fillna(1)`-ed, so the
zero-divisor guard (pandas would produce `inf`, which has no model here) and
the non-numeric fallback are unreachable. -/
def Cell.div : Cell → Cell → Cell
  | .num a, .num b => if b == 0 then .nan else .num (a / b)
  | _, _ => .nan

/-- Lines 558-562: if a legacy `'Volunteer Hours'` column exists, replace
zeros of `'Adult Volunteers'` by 1 in place (raising `KeyError` when that
column is missing), set `'Duration (Hrs)'` to
`Volunteer Hours / Adult Volunteers.fillna(1)`, and drop
`'Volunteer Hours'`. -/
def volunteerStep (df : DF) : Except CleanupErr DF :=
  if df.hasCol (.str "Volunteer Hours") then
    match df.getCol (.str "Adult Volunteers") with
    | none => .error (.keyError "Adult Volunteers")
    | some av =>
      let av1 := av.map replace01
      let d1 := df.setCol (.str "Adult Volunteers") av1
      let vh := (d1.getCol (.str "Volunteer Hours")).getD []
      let dur := List.zipWith Cell.div vh (av1.map fillNan1)
      .ok ((d1.setCol (.str "Duration (Hrs)") dur).dropColAll (.str "Volunteer Hours"))
  else .ok df

/-- Line 566: `replace([0, 1], NaN)` on one site cell. -/
def site01ToNan (v : Cell) : Cell := if v == .num 0 || v == .num 1 then .nan else v

/-- Line 567: `replace(0, NaN)` on one date cell. -/
def date0ToNan (v : Cell) : Cell := if v == .num 0 then .nan else v

/-- Line 566 (raises `KeyError` when `'Cleanup Site'` is missing). -/
def replaceSiteStep (df : DF) : Except CleanupErr DF :=
  match df.getCol (.str "Cleanup Site") with
  | none => .error (.keyError "Cleanup Site")
  | some col => .ok (df.setCol (.str "Cleanup Site") (col.map site01ToNan))

/-- Line 567 (raises `KeyError` when `'Date'` is missing). -/
def replaceDateStep (df : DF) : Except CleanupErr DF :=
  match df.getCol (.str "Date") with
  | none => .error (.keyError "Date")
  | some col => .ok (df.setCol (.str "Date") (col.map date0ToNan))

/-- Line 569's keep-mask: `dropna(subset=['Cleanup Site', 'Date'])`. -/
def dropSiteDateMask (df : DF) (i : Nat) : Bool :=
  !(cellAt df (.str "Cleanup Site") i == .nan) && !(cellAt df (.str "Date") i == .nan)

/-- Line 569. -/
def dropSiteDateStep (df : DF) : DF := df.filterRows (dropSiteDateMask df)

/-- One cell under `pd.to_datetime(..., errors='coerce')`: timestamps pass,
numbers are read as epoch offsets (hence valid timestamps), strings parse or
coerce to `NaT`, `NaN` stays missing. -/
def toDatetimeCell (v : Cell) : Cell :=
  match v with
  | .date t => .date t
  | .num q => .date q
  | .str s => match parseDateQ s with | some t => .date t | none => .nan
  | .nan => .nan

/-- Line 573. -/
def toDatetimeStep (df : DF) : DF :=
  df.setCol (.str "Date") (((df.getCol (.str "Date")).getD []).map toDatetimeCell)

/-- Line 574's keep-mask: `dropna(subset=['Date'])`. -/
def dropDateMask (df : DF) (i : Nat) : Bool := !(cellAt df (.str "Date") i == .nan)

/-- Line 574. -/
def dropDateStep (df : DF) : DF := df.filterRows (dropDateMask df)

/-- `read_sheet` (lines 548-576) on an already-loaded frame: orient, rename,
the `'Volunteer Hours'` special case, the site/date zero-replacements, the
site/date row filter, numeric coercion, date parsing, the date row filter,
and the (positionally trivial) `reset_index(drop=True)`. -/
def read_sheet (df : DF) : Except CleanupErr DF :=
  match volunteerStep (rename_data (orient_data df)) with
  | .error e => .error e
  | .ok d1 =>
    match replaceSiteStep d1 with
    | .error e => .error e
    | .ok d2 =>
      match replaceDateStep d2 with
      | .error e => .error e
      | .ok d3 =>
        .ok (dropDateStep (toDatetimeStep (make_numeric_cols_numeric_again (dropSiteDateStep d3))))

/-! ## `merge_data` (lines 579-600) -/

/-- Date-key comparison for the final `sort_values(by='Date')`: timestamps
order by key, anything missing sorts last. -/
def dateKeyLe (a b : Cell) : Bool :=
  match a, b with
  | .date x, .date y => decide (x ≤ y)
  | .date _, _ => true
  | _, .date _ => false
  | _, _ => true

/-- Insert into a sorted index list. -/
def insertOrd (le : Nat → Nat → Bool) (x : Nat) : List Nat → List Nat
  | [] => [x]
  | y :: r => if le x y then x :: y :: r else y :: insertOrd le x r

/-- Stable insertion sort of row indices. -/
def insertionSortBy (le : Nat → Nat → Bool) : List Nat → List Nat
  | [] => []
  | x :: r => insertOrd le x (insertionSortBy le r)

/-- Line 599: `sort_values(by='Date')` — reorder the rows by ascending date. -/
def sortByDate (df : DF) : DF :=
  let dcol := (df.getCol (.str "Date")).getD []
  let sorted := insertionSortBy (fun i j => dateKeyLe (dcol.getD i .nan) (dcol.getD j .nan))
    (List.range df.nrows)
  ⟨df.cols.map (fun c => (c.1, sorted.map (fun i => c.2.getD i .nan)))⟩

/-- `pd.concat([a, b], axis=0, ignore_index=True)`: rows of `a` then rows of
`b`; columns of `a` first (filled with `NaN` where `b` lacks them), then the
columns only `b` has (filled with `NaN` on `a`'s rows). -/
def concatRows (a b : DF) : DF :=
  let fromA := a.cols.map (fun c =>
    (c.1, c.2 ++ (match b.getCol c.1 with
      | some v => v
      | none => List.replicate b.nrows .nan)))
  let extraB := (b.cols.filter (fun c => !(a.hasCol c.1))).map
    (fun c => (c.1, List.replicate a.nrows .nan ++ c.2))
  ⟨fromA ++ extraB⟩

/-- The body of `merge_data`'s per-file loop (lines 582-597): read, merge
columns, merge sites, then append to the accumulator (which starts as
`None`). -/
def mergeStep (acc : Option DF) (sheet : DF) : Except CleanupErr (Option DF) :=
  match read_sheet sheet with
  | .error e => .error e
  | .ok d =>
    match merge_sites (merge_columns d) with
    | .error e => .error e
    | .ok d2 => .ok (some (match acc with | none => d2 | some m => concatRows m d2))

/-- The loop of lines 582-597 over all sheets. -/
def mergeLoop : Option DF → List DF → Except CleanupErr (Option DF)
  | acc, [] => .ok acc
  | acc, s :: rest =>
    match mergeStep acc s with
    | .error e => .error e
    | .ok a => mergeLoop a rest

/-- `merge_data` (lines 579-600) on the loaded sheets of the input directory:
process every sheet, then `merged_data.sort_values(by='Date')` — which, when
no sheet was processed, is an attribute access on `None` and raises
`AttributeError`. -/
def merge_data (sheets : List DF) : Except CleanupErr DF :=
  match mergeLoop none sheets with
  | .error e => .error e
  | .ok none => .error (.attributeError "sort_values")
  | .ok (some d) => .ok (sortByDate d)

/-! ## Basic lemmas about the dataframe operations -/

deriving instance DecidableEq for Except

set_option maxRecDepth 40000


/-! ## Basic lemmas about the dataframe operations -/

deriving instance DecidableEq for Except

set_option maxRecDepth 40000

theorem hasCol_eq_any_labels (df : DF) (l : Cell) :
    df.hasCol l = df.labels.any (fun x => x == l) := by
  cases df with
  | mk cols =>
    simp only [DF.hasCol, DF.labels]
    induction cols with
    | nil => rfl
    | cons c rest ih => simp only [List.any_cons, List.map_cons, ih]

theorem find?_eq_none_of_any_false {α : Type} (p : α → Bool) (cs : List α)
    (h : cs.any p = false) : cs.find? p = none := by
  rw [List.find?_eq_none]
  intro c hc hp
  exact absurd hp (by simpa using (List.any_eq_false.mp h c hc))

theorem labels_setColGo (l : Cell) (v : List Cell) :
    ∀ cs : List (Cell × List Cell), (setColGo l v cs).map Prod.fst = cs.map Prod.fst := by
  intro cs
  induction cs with
  | nil => rfl
  | cons c rest ih =>
    by_cases h : (c.1 == l) = true
    · simp [setColGo, h]
    · simp [setColGo, h, ih]

theorem DF.labels_setCol_pos (df : DF) (l : Cell) (v : List Cell) (h : df.hasCol l = true) :
    (df.setCol l v).labels = df.labels := by
  simp only [DF.setCol, h, if_pos]
  exact labels_setColGo l v df.cols

theorem DF.labels_setCol_neg (df : DF) (l : Cell) (v : List Cell) (h : df.hasCol l = false) :
    (df.setCol l v).labels = df.labels ++ [l] := by
  simp [DF.setCol, h, DF.labels]

theorem DF.hasCol_setCol (df : DF) (l : Cell) (v : List Cell) (l' : Cell) :
    (df.setCol l v).hasCol l' = (df.hasCol l' || l' == l) := by
  by_cases h : df.hasCol l = true
  · rw [hasCol_eq_any_labels, DF.labels_setCol_pos df l v h, ← hasCol_eq_any_labels]
    by_cases h' : l' = l
    · subst h'; simp [h]
    · simp [beq_iff_eq, h']
  · rw [hasCol_eq_any_labels, DF.labels_setCol_neg df l v (by simpa using h),
      List.any_append, ← hasCol_eq_any_labels]
    have : ([l].any fun x => x == l') = (l' == l) := by
      simp only [List.any_cons, List.any_nil, Bool.or_false]
      by_cases h' : l' = l
      · subst h'; simp
      · rw [beq_eq_false_iff_ne.mpr (fun hh => h' hh.symm), beq_eq_false_iff_ne.mpr h']
    rw [this]

theorem find?_setColGo_self (l : Cell) (v : List Cell) :
    ∀ cs : List (Cell × List Cell), cs.any (fun c => c.1 == l) = true →
      (setColGo l v cs).find? (fun c => c.1 == l) = some (l, v) := by
  intro cs
  induction cs with
  | nil => intro h; simp at h
  | cons c0 rest ih =>
    intro h
    by_cases h0 : (c0.1 == l) = true
    · have hc0 : c0.1 = l := by simpa [beq_iff_eq] using h0
      simp only [setColGo, h0, if_pos]
      rw [List.find?_cons_of_pos _ (by simpa using h0), hc0]
    · simp only [setColGo, h0, if_neg, Bool.false_eq_true, not_false_iff]
      rw [List.find?_cons_of_neg _ (by simpa using h0)]
      refine ih ?_
      rcases List.any_eq_true.mp h with ⟨c, hc, hb⟩
      rcases List.mem_cons.mp hc with rfl | hmem
      · exact absurd hb h0
      · exact List.any_eq_true.mpr ⟨c, hmem, hb⟩

theorem DF.getCol_setCol_self (df : DF) (l : Cell) (v : List Cell) :
    (df.setCol l v).getCol l = some v := by
  by_cases h : df.hasCol l = true
  · simp only [DF.setCol, h, if_pos, DF.getCol]
    rw [find?_setColGo_self l v df.cols h]
    rfl
  · simp only [DF.setCol, h, if_neg, Bool.false_eq_true, not_false_iff, DF.getCol,
      List.find?_append]
    have hfalse : df.cols.any (fun c => c.1 == l) = false := by
      simp only [Bool.not_eq_true] at h
      exact h
    rw [find?_eq_none_of_any_false _ _ hfalse]
    simp

theorem find?_setColGo_ne (l : Cell) (v : List Cell) (l' : Cell) (h : l' ≠ l) :
    ∀ cs : List (Cell × List Cell),
      (setColGo l v cs).find? (fun c => c.1 == l') = cs.find? (fun c => c.1 == l') := by
  intro cs
  induction cs with
  | nil => rfl
  | cons c0 rest ih =>
    by_cases h0 : (c0.1 == l) = true
    · have hc0 : c0.1 = l := by simpa [beq_iff_eq] using h0
      have hne : (c0.1 == l') = false := by
        rw [hc0]; exact beq_eq_false_iff_ne.mpr (fun hh => h hh.symm)
      simp only [setColGo, h0, if_pos]
      rw [List.find?_cons_of_neg _ (by simpa using hne),
        List.find?_cons_of_neg _ (by simpa using hne)]
    · simp only [setColGo, h0, if_neg, Bool.false_eq_true, not_false_iff]
      by_cases h1 : (c0.1 == l') = true
      · rw [List.find?_cons_of_pos _ (by simpa using h1),
          List.find?_cons_of_pos _ (by simpa using h1)]
      · rw [List.find?_cons_of_neg _ (by simpa using h1),
          List.find?_cons_of_neg _ (by simpa using h1), ih]

theorem DF.getCol_setCol_ne (df : DF) (l : Cell) (v : List Cell) (l' : Cell) (h : l' ≠ l) :
    (df.setCol l v).getCol l' = df.getCol l' := by
  by_cases hc : df.hasCol l = true
  · simp only [DF.setCol, hc, if_pos, DF.getCol]
    rw [find?_setColGo_ne l v l' h df.cols]
  · simp only [DF.setCol, hc, if_neg, Bool.false_eq_true, not_false_iff, DF.getCol,
      List.find?_append]
    have : List.find? (fun c => c.1 == l') [(l, v)] = none := by
      have : (l == l') = false := beq_eq_false_iff_ne.mpr (fun hh => h hh.symm)
      simp [List.find?, this]
    rw [this]
    simp

theorem DF.getCol_dropAll_ne (df : DF) (l l' : Cell) (h : l' ≠ l) :
    (df.dropColAll l).getCol l' = df.getCol l' := by
  simp only [DF.dropColAll, DF.getCol]
  congr 1
  induction df.cols with
  | nil => rfl
  | cons c0 rest ih =>
    by_cases h0 : (c0.1 == l) = true
    · have hc0 : c0.1 = l := by simpa [beq_iff_eq] using h0
      have hne : (c0.1 == l') = false := by
        rw [hc0]; exact beq_eq_false_iff_ne.mpr (fun hh => h hh.symm)
      rw [List.filter_cons_of_neg (by simp [h0]),
        List.find?_cons_of_neg _ (by simpa using hne), ih]
    · rw [List.filter_cons_of_pos (by simp [h0])]
      by_cases h1 : (c0.1 == l') = true
      · rw [List.find?_cons_of_pos _ (by simpa using h1),
          List.find?_cons_of_pos _ (by simpa using h1)]
      · rw [List.find?_cons_of_neg _ (by simpa using h1),
          List.find?_cons_of_neg _ (by simpa using h1), ih]

theorem DF.hasCol_dropAll (df : DF) (l l' : Cell) :
    (df.dropColAll l).hasCol l' = (!(l' == l) && df.hasCol l') := by
  by_cases h : l' = l
  · subst h
    simp only [beq_self_eq_true, Bool.not_true, Bool.false_and]
    rw [← Bool.not_eq_true]
    simp only [DF.dropColAll, DF.hasCol, List.any_eq_true]
    rintro ⟨c, hc, hb⟩
    rw [List.mem_filter] at hc
    rw [hb] at hc
    simp at hc
  · rw [beq_eq_false_iff_ne.mpr h]
    simp only [Bool.not_false, Bool.true_and]
    simp only [DF.dropColAll, DF.hasCol]
    rw [Bool.eq_iff_iff]
    simp only [List.any_eq_true, List.mem_filter]
    constructor
    · rintro ⟨c, ⟨hc, _⟩, hb⟩
      exact ⟨c, hc, hb⟩
    · rintro ⟨c, hc, hb⟩
      have hc1 : c.1 = l' := by simpa [beq_iff_eq] using hb
      exact ⟨c, ⟨hc, by simp [hc1, beq_eq_false_iff_ne.mpr h]⟩, hb⟩

theorem DF.labels_filterRows (df : DF) (k : Nat → Bool) :
    (df.filterRows k).labels = df.labels := by
  simp [DF.filterRows, DF.labels, List.map_map, Function.comp]

theorem DF.hasCol_filterRows (df : DF) (k : Nat → Bool) (l : Cell) :
    (df.filterRows k).hasCol l = df.hasCol l := by
  rw [hasCol_eq_any_labels, DF.labels_filterRows, ← hasCol_eq_any_labels]

theorem DF.getCol_filterRows (df : DF) (k : Nat → Bool) (l : Cell) :
    (df.filterRows k).getCol l = (df.getCol l).map (maskFilter k 0) := by
  simp only [DF.filterRows, DF.getCol]
  induction df.cols with
  | nil => rfl
  | cons c0 rest ih =>
    by_cases h0 : (c0.1 == l) = true
    · rw [List.map_cons, List.find?_cons_of_pos _ (by simpa using h0),
        List.find?_cons_of_pos _ (by simpa using h0)]
      rfl
    · rw [List.map_cons, List.find?_cons_of_neg _ (by simpa using h0),
        List.find?_cons_of_neg _ (by simpa using h0), ih]

theorem getCol_of_hasCol (df : DF) (l : Cell) (h : df.hasCol l = true) :
    ∃ v, df.getCol l = some v := by
  simp only [DF.hasCol] at h
  rcases hf : df.cols.find? (fun c => c.1 == l) with _ | c'
  · rw [List.find?_eq_none] at hf
    rcases List.any_eq_true.mp h with ⟨c, hc, hb⟩
    exact absurd hb (by simpa using hf c hc)
  · exact ⟨c'.2, by simp [DF.getCol, hf]⟩

theorem getCol_eq_none_of_not_hasCol (df : DF) (l : Cell) (h : df.hasCol l = false) :
    df.getCol l = none := by
  simp only [DF.getCol]
  rw [find?_eq_none_of_any_false _ _ h]
  rfl

theorem hasCol_of_getCol (df : DF) (l : Cell) (v : List Cell) (h : df.getCol l = some v) :
    df.hasCol l = true := by
  by_contra hn
  rw [getCol_eq_none_of_not_hasCol df l (by simpa using hn)] at h
  exact Option.noConfusion h

theorem setColGo_self (l : Cell) (v : List Cell) :
    ∀ cs : List (Cell × List Cell),
      (cs.find? (fun c => c.1 == l)).map Prod.snd = some v → setColGo l v cs = cs := by
  intro cs
  induction cs with
  | nil => intro h; simp at h
  | cons c0 rest ih =>
    intro h
    by_cases h0 : (c0.1 == l) = true
    · rw [List.find?_cons_of_pos _ (by simpa using h0)] at h
      have : c0.2 = v := by simpa using h
      simp [setColGo, h0, ← this]
    · rw [List.find?_cons_of_neg _ (by simpa using h0)] at h
      simp [setColGo, h0, ih h]

theorem setCol_self_of_getCol (df : DF) (l : Cell) (v : List Cell) (h : df.getCol l = some v) :
    df.setCol l v = df := by
  have hc : df.hasCol l = true := hasCol_of_getCol df l v h
  simp only [DF.setCol, hc, if_pos]
  cases df with
  | mk cols =>
    simp only [DF.mk.injEq]
    exact setColGo_self l v cols (by simpa [DF.getCol] using h)

theorem maskFilter_sublist (k : Nat → Bool) (i : Nat) (l : List Cell) :
    (maskFilter k i l).Sublist l := by
  induction l generalizing i with
  | nil => simp [maskFilter]
  | cons x r ih =>
    by_cases h : k i = true
    · simpa [maskFilter, h] using (ih (i + 1)).cons₂ x
    · simp only [maskFilter, h, if_neg, Bool.false_eq_true, not_false_iff]
      exact (ih (i + 1)).cons x

theorem maskFilter_map (k : Nat → Bool) (f : Cell → Cell) (l : List Cell) :
    ∀ i, maskFilter k i (l.map f) = (maskFilter k i l).map f := by
  induction l with
  | nil => intro i; rfl
  | cons x r ih =>
    intro i
    by_cases h : k i = true
    · simp [maskFilter, h, ih]
    · simp [maskFilter, h, ih]

theorem mem_maskFilter {k : Nat → Bool} {v : Cell} {l : List Cell} :
    ∀ {i : Nat}, v ∈ maskFilter k i l →
      ∃ j, j < l.length ∧ l.getD j .nan = v ∧ k (i + j) = true := by
  induction l with
  | nil => intro i h; simp [maskFilter] at h
  | cons x r ih =>
    intro i h
    by_cases hk : k i = true
    · rw [maskFilter, if_pos hk] at h
      rcases List.mem_cons.mp h with rfl | hmem
      · exact ⟨0, by simp, by simp, by simpa using hk⟩
      · obtain ⟨j, hj, hg, hkj⟩ := ih hmem
        exact ⟨j + 1, by simpa using Nat.succ_lt_succ hj, by simpa using hg,
          by rw [show i + (j + 1) = i + 1 + j by omega]; exact hkj⟩
    · rw [maskFilter, if_neg (by simpa using hk)] at h
      obtain ⟨j, hj, hg, hkj⟩ := ih h
      exact ⟨j + 1, by simpa using Nat.succ_lt_succ hj, by simpa using hg,
        by rw [show i + (j + 1) = i + 1 + j by omega]; exact hkj⟩

/-! ## Lemmas about `volunteerStep` -/

theorem volunteerStep_pres (r r1 : DF) (h : volunteerStep r = .ok r1) (l : Cell)
    (h1 : l ≠ .str "Adult Volunteers") (h2 : l ≠ .str "Duration (Hrs)")
    (h3 : l ≠ .str "Volunteer Hours") :
    r1.hasCol l = r.hasCol l ∧ r1.getCol l = r.getCol l := by
  unfold volunteerStep at h
  by_cases hb : r.hasCol (.str "Volunteer Hours") = true
  · rw [if_pos hb] at h
    cases hg : r.getCol (.str "Adult Volunteers") with
    | none => rw [hg] at h; exact absurd h (by simp)
    | some av =>
      rw [hg] at h
      simp only [Except.ok.injEq] at h
      constructor
      · rw [← h, DF.hasCol_dropAll, DF.hasCol_setCol, DF.hasCol_setCol,
          beq_eq_false_iff_ne.mpr h1, beq_eq_false_iff_ne.mpr h2, beq_eq_false_iff_ne.mpr h3]
        simp
      · rw [← h, DF.getCol_dropAll_ne _ _ _ h3, DF.getCol_setCol_ne _ _ _ _ h2,
          DF.getCol_setCol_ne _ _ _ _ h1]
  · rw [if_neg hb] at h
    simp only [Except.ok.injEq] at h
    rw [← h]
    exact ⟨rfl, rfl⟩

theorem volunteerStep_ok_data (r : DF) (av : List Cell)
    (hvh : r.hasCol (.str "Volunteer Hours") = true)
    (hav : r.getCol (.str "Adult Volunteers") = some av) :
    ∃ r1, volunteerStep r = .ok r1 ∧
      r1.getCol (.str "Adult Volunteers") = some (av.map replace01) ∧
      r1.getCol (.str "Duration (Hrs)") =
        some (List.zipWith Cell.div ((r.getCol (.str "Volunteer Hours")).getD [])
          ((av.map replace01).map fillNan1)) ∧
      r1.hasCol (.str "Volunteer Hours") = false := by
  refine ⟨_, by unfold volunteerStep; rw [if_pos hvh, hav], ?_, ?_, ?_⟩
  · rw [DF.getCol_dropAll_ne _ _ _ (by decide), DF.getCol_setCol_ne _ _ _ _ (by decide),
      DF.getCol_setCol_self]
  · rw [DF.getCol_dropAll_ne _ _ _ (by decide), DF.getCol_setCol_self,
      DF.getCol_setCol_ne _ _ _ _ (by decide)]
  · rw [DF.hasCol_dropAll]
    simp

theorem volunteerStep_ok_noVH (r r1 : DF) (h : volunteerStep r = .ok r1) :
    r1.hasCol (.str "Volunteer Hours") = false := by
  unfold volunteerStep at h
  by_cases hb : r.hasCol (.str "Volunteer Hours") = true
  · rw [if_pos hb] at h
    cases hg : r.getCol (.str "Adult Volunteers") with
    | none => rw [hg] at h; exact absurd h (by simp)
    | some av =>
      rw [hg] at h
      simp only [Except.ok.injEq] at h
      rw [← h, DF.hasCol_dropAll]
      simp
  · rw [if_neg hb] at h
    simp only [Except.ok.injEq] at h
    rw [← h]
    simpa using hb

/-! ## Concrete fixtures -/

/-- A sheet with a site column but no column renaming to `'Date'`. -/
def exNoDate : DF := ⟨[(.str "Cleanup Site", [.str "Beach"])]⟩

/-- Does the pipeline result carry the spec's `SchemaError`? -/
def isSchemaFailure (r : Except CleanupErr DF) : Bool :=
  match r with
  | .error (.schemaError _) => true
  | _ => false

/-! ## C2 — missing Date column -/

/-- C2, counterexample: on a sheet with no alias of `Date`, `read_sheet`
fails with pandas' untyped `KeyError: 'Date'` (raised by line 567's
`sos_data['Date'].replace`), not with the spec's `SchemaError` — no such
exception class exists in `cleanup.py`. -/
theorem c2_counterexample :
    read_sheet exNoDate = .error (.keyError "Date") ∧
      isSchemaFailure (read_sheet exNoDate) = false := by
  constructor
  · with_unfolding_all decide
  · with_unfolding_all decide

/-- C2 (amended): for every sheet whose labels, after orientation and
renaming, contain no `'Date'` (no alias of the Date column matched), the run
does fail for that sheet — but with an untyped `KeyError: 'Date'`, provided
the two column accesses that precede line 567 succeed (`'Cleanup Site'`
exists, and `'Adult Volunteers'` exists whenever `'Volunteer Hours'` does);
it never fails with a typed `SchemaError`. -/
theorem c2_missing_date_keyerror (df : DF)
    (hdate : (rename_data (orient_data df)).hasCol (.str "Date") = false)
    (hsite : (rename_data (orient_data df)).hasCol (.str "Cleanup Site") = true)
    (hvh : (rename_data (orient_data df)).hasCol (.str "Volunteer Hours") = true →
      (rename_data (orient_data df)).hasCol (.str "Adult Volunteers") = true) :
    read_sheet df = .error (.keyError "Date") := by
  have hstep : ∃ r1, volunteerStep (rename_data (orient_data df)) = .ok r1 ∧
      r1.hasCol (.str "Date") = false ∧ r1.hasCol (.str "Cleanup Site") = true := by
    by_cases hb : (rename_data (orient_data df)).hasCol (.str "Volunteer Hours") = true
    · obtain ⟨av, hav⟩ := getCol_of_hasCol _ _ (hvh hb)
      obtain ⟨r1, h1, _, _, _⟩ := volunteerStep_ok_data _ av hb hav
      refine ⟨r1, h1, ?_, ?_⟩
      · rw [(volunteerStep_pres _ _ h1 _ (by decide) (by decide) (by decide)).1, hdate]
      · rw [(volunteerStep_pres _ _ h1 _ (by decide) (by decide) (by decide)).1, hsite]
    · refine ⟨_, ?_, hdate, hsite⟩
      unfold volunteerStep
      rw [if_neg hb]
  obtain ⟨r1, h1, hd1, hs1⟩ := hstep
  obtain ⟨sc, hsc⟩ := getCol_of_hasCol _ _ hs1
  have h2 : replaceSiteStep r1 = .ok (r1.setCol (.str "Cleanup Site") (sc.map site01ToNan)) := by
    unfold replaceSiteStep
    rw [hsc]
  have hd2 : (r1.setCol (.str "Cleanup Site") (sc.map site01ToNan)).hasCol (.str "Date") = false := by
    rw [DF.hasCol_setCol, hd1]
    simp
  have h3 : replaceDateStep (r1.setCol (.str "Cleanup Site") (sc.map site01ToNan)) =
      .error (.keyError "Date") := by
    unfold replaceDateStep
    rw [getCol_eq_none_of_not_hasCol _ _ hd2]
  unfold read_sheet
  simp only [h1, h2, h3]

/-- C2, witness: the amended theorem applied to the concrete no-`Date` sheet. -/
theorem c2_missing_date_keyerror_witness :
    read_sheet exNoDate = .error (.keyError "Date") :=
  c2_missing_date_keyerror exNoDate (by with_unfolding_all decide)
    (by with_unfolding_all decide)
    (fun h => by rw [(by with_unfolding_all decide :
      (rename_data (orient_data exNoDate)).hasCol (.str "Volunteer Hours") = false)] at h
                 exact absurd h (by simp))

/-! ## C10 — merge of an empty directory -/

/-- C10: with no source sheets the per-file loop never runs, the accumulator
is still `None` when line 599 calls `sort_values` on it, and `merge_data`
fails with `AttributeError` — it does not return an empty dataset.  At least
one `.xlsx` file is therefore a precondition for `merge_data` to produce a
result. -/
theorem c10_empty_merge_fails :
    merge_data [] = .error (.attributeError "sort_values") := by
  with_unfolding_all decide

/-! ## C3 — orientation lemmas -/

/-- The cells of the sheet's first column (empty for a sheet with no
columns). -/
def firstColCells (df : DF) : List Cell :=
  match df.cols with
  | [] => []
  | c :: _ => c.2

theorem orient_noop (df : DF) (h : df.labels.any isUnnamedLabel = false) :
    orient_data df = df := by
  unfold orient_data
  simp [h]

theorem orient_transposed (df : DF) (l0 : Cell) (v0 : List Cell)
    (rest : List (Cell × List Cell)) (hc : df.cols = (l0, v0) :: rest)
    (hg : df.labels.any isUnnamedLabel = true) :
    orient_data df =
      collapseOther (dropAllNanRows (dropNanLabelCols (transposeDF (injectOther v0) rest))) := by
  unfold orient_data
  rw [hg, hc]
  rfl

theorem mem_labels_transposeDF (w : List Cell) (rest : List (Cell × List Cell)) :
    ∀ l ∈ (transposeDF w rest).labels, l ∈ w := by
  intro l hl
  simp only [transposeDF, DF.labels, List.map_map, List.mem_map, Function.comp] at hl
  obtain ⟨i, hi, hval⟩ := hl
  rw [List.mem_range] at hi
  rw [← hval, List.getD_eq_getElem?_getD, List.getElem?_eq_getElem hi]
  exact List.getElem_mem hi

theorem mem_injectOther (v0 : List Cell) :
    ∀ l ∈ injectOther v0, l ∈ v0 ∨ l = .str "Other:" := by
  unfold injectOther
  cases h : nanIdxList 0 v0 with
  | nil => exact fun l hl => Or.inl hl
  | cons a t =>
    cases t with
    | nil => exact fun l hl => Or.inl hl
    | cons j t2 => exact fun l hl => List.mem_or_eq_of_mem_set hl

theorem mem_labels_dropNanLabelCols (t : DF) :
    ∀ l ∈ (dropNanLabelCols t).labels, l ∈ t.labels := by
  intro l hl
  unfold dropNanLabelCols at hl
  by_cases hb : t.labels.any (fun x => x == Cell.nan) = true
  · rw [if_pos hb] at hl
    simp only [DF.labels, List.mem_map] at hl ⊢
    obtain ⟨c, hc, rfl⟩ := hl
    exact ⟨c, (List.mem_filter.mp hc).1, rfl⟩
  · rw [if_neg hb] at hl
    exact hl

theorem labels_dropAllNanRows (t : DF) : (dropAllNanRows t).labels = t.labels :=
  DF.labels_filterRows t _

theorem mem_labels_collapseOther (t : DF) :
    ∀ l ∈ (collapseOther t).labels, l ∈ t.labels ∨ l = .str "Other Sum" := by
  intro l hl
  unfold collapseOther at hl
  cases hk : otherIdx t with
  | none => rw [hk] at hl; exact Or.inl hl
  | some k =>
    rw [hk] at hl
    simp only [DF.labels, List.mem_map] at hl
    obtain ⟨c, hc, rfl⟩ := hl
    have hc2 : c ∈ (t.setCol (.str "Other Sum")
        ((List.range t.nrows).map (fun i => Cell.num
          (((t.cols.filter (fun c => (t.labels.drop k).contains c.1)).filter
            (fun c => !(isObjectDtype (c.2.map fillNan0)))).foldl
            (fun acc c => acc + cellQ (fillNan0 (c.2.getD i .nan))) 0)))).cols :=
      (List.mem_filter.mp hc).1
    have : c.1 ∈ (t.setCol (.str "Other Sum") _).labels := List.mem_map.mpr ⟨c, hc2, rfl⟩
    by_cases hb : t.hasCol (.str "Other Sum") = true
    · rw [DF.labels_setCol_pos _ _ _ hb] at this
      exact Or.inl this
    · rw [DF.labels_setCol_neg _ _ _ (by simpa using hb)] at this
      rcases List.mem_append.mp this with h | h
      · exact Or.inl h
      · exact Or.inr (by simpa using h)

/-- C3, counterexample: a transposed sheet whose first column contains the
string `"Unnamed thing"`.  After one `orient_data` that cell becomes a
column label containing the placeholder marker, so a second `orient_data`
transposes again: orientation is not idempotent on every raw sheet. -/
def exOrientBad : DF :=
  ⟨[(.str "Items", [.str "Unnamed thing", .str "Cans"]),
    (.str "Unnamed: 1", [.num 1, .num 2])]⟩

theorem c3_counterexample :
    orient_data (orient_data exOrientBad) ≠ orient_data exOrientBad := by
  with_unfolding_all decide

/-- An already-oriented sheet (no placeholder label). -/
def exPlain : DF := ⟨[(.str "Date", [.num 1])]⟩

/-- A transposed sheet whose first column holds ordinary item names. -/
def exOrientGood : DF :=
  ⟨[(.str "Items", [.str "Cans", .str "Bottles"]),
    (.str "Unnamed: 1", [.num 1, .nan])]⟩

/-- C3 (amended): `orient_data` leaves a sheet without placeholder-marked
labels unchanged; and `orient_data` is idempotent on every sheet no cell of
whose first column is a string containing the placeholder marker `'Unnamed'`
(the counterexample shows idempotence fails without that proviso, because
the first column's cells become the transposed sheet's labels). -/
theorem c3_orient_idempotent (df : DF) :
    (df.labels.any isUnnamedLabel = false → orient_data df = df) ∧
    ((firstColCells df).all (fun v => !(isUnnamedLabel v)) = true →
      orient_data (orient_data df) = orient_data df) := by
  refine ⟨orient_noop df, ?_⟩
  intro hcells
  by_cases hg : df.labels.any isUnnamedLabel = true
  · cases hc : df.cols with
    | nil =>
      exfalso
      rw [show df.labels = [] by simp [DF.labels, hc]] at hg
      simp at hg
    | cons c0 rest =>
      have hv0 : firstColCells df = c0.2 := by simp [firstColCells, hc]
      have htr := orient_transposed df c0.1 c0.2 rest (by rw [hc]) hg
      have hfix : (orient_data df).labels.any isUnnamedLabel = false := by
        rw [List.any_eq_false]
        intro l hl
        rw [htr] at hl
        rcases mem_labels_collapseOther _ l hl with h1 | h1
        · rw [labels_dropAllNanRows] at h1
          have h2 := mem_labels_dropNanLabelCols _ l h1
          have h3 := mem_labels_transposeDF _ rest l h2
          rcases mem_injectOther c0.2 l h3 with h4 | h4
          · have := List.all_eq_true.mp hcells l (by rwa [hv0])
            simpa using this
          · subst h4; decide
        · subst h1; decide
      rw [orient_noop _ hfix]
  · have hg' : df.labels.any isUnnamedLabel = false := by simpa using hg
    rw [orient_noop df hg', orient_noop df hg']

/-- C3, witness: the amended theorem at concrete sheets — an already-oriented
sheet is returned unchanged, and orientation is idempotent on a transposed
sheet with ordinary first-column values. -/
theorem c3_orient_idempotent_witness :
    orient_data exPlain = exPlain ∧
      orient_data (orient_data exOrientGood) = orient_data exOrientGood :=
  ⟨(c3_orient_idempotent exPlain).1 (by with_unfolding_all decide),
   (c3_orient_idempotent exOrientGood).2 (by with_unfolding_all decide)⟩

/-! ## C4 — columns not named in any merge group survive -/

theorem getCol_addStep_ne (ex : List Cell) (target : String) (d : DF) (s : String) (l : Cell)
    (h1 : l ≠ .str target) (h2 : l ≠ .str s) :
    (addStep ex target d s).getCol l = d.getCol l := by
  unfold addStep
  by_cases hg : (ex.contains (.str s) && !(s == target)) = true
  · rw [if_pos hg]
    cases hsc : d.getCol (.str s) with
    | none => rfl
    | some scol =>
      show (addApply target d s scol).getCol l = d.getCol l
      unfold addApply
      rw [DF.getCol_dropAll_ne _ _ _ h2, DF.getCol_setCol_ne _ _ _ _ h1]
  · rw [if_neg hg]

theorem getCol_addColsInit_ne (df : DF) (target : String) (l : Cell) (h1 : l ≠ .str target) :
    (addColsInit df target).getCol l = df.getCol l := by
  unfold addColsInit
  by_cases hb : (!(df.labels.contains (.str target))) = true
  · rw [if_pos hb, DF.getCol_setCol_ne _ _ _ _ h1]
  · rw [if_neg hb]
    by_cases ho : isObjectDtype ((df.getCol (.str target)).getD []) = true
    · rw [if_pos ho, DF.getCol_setCol_ne _ _ _ _ h1]
    · rw [if_neg ho]

theorem getCol_add_cols_ne (df : DF) (target : String) (srcs : List String) (l : Cell)
    (h1 : l ≠ .str target) (h2 : ∀ s ∈ srcs, l ≠ .str s) :
    (add_cols df target srcs).getCol l = df.getCol l := by
  unfold add_cols
  have hgen : ∀ (ss : List String) (d : DF), (∀ s ∈ ss, l ≠ .str s) →
      (ss.foldl (addStep df.labels target) d).getCol l = d.getCol l := by
    intro ss
    induction ss with
    | nil => intro d _; rfl
    | cons s rest ih =>
      intro d hs
      rw [List.foldl_cons, ih _ (fun x hx => hs x (List.mem_cons_of_mem _ hx)),
        getCol_addStep_ne _ _ _ _ _ h1 (hs s (List.mem_cons_self _ _))]
  rw [hgen srcs _ h2, getCol_addColsInit_ne df target l h1]

/-- Every target and source name of the 22 merge groups. -/
def mergeLabels : List String :=
  mergeSpecs.foldr (fun q acc => q.1 :: (q.2 ++ acc)) []

theorem mem_mergeLabels_of_mem {p : String × List String} :
    ∀ {specs : List (String × List String)}, p ∈ specs →
      p.1 ∈ specs.foldr (fun q acc => q.1 :: (q.2 ++ acc)) [] ∧
      ∀ s ∈ p.2, s ∈ specs.foldr (fun q acc => q.1 :: (q.2 ++ acc)) [] := by
  intro specs hp
  induction specs with
  | nil => simp at hp
  | cons q rest ih =>
    rcases List.mem_cons.mp hp with rfl | hmem
    · exact ⟨List.mem_cons_self _ _,
        fun s hs => List.mem_cons_of_mem _ (List.mem_append_left _ hs)⟩
    · obtain ⟨ht, hsrc⟩ := ih hmem
      exact ⟨List.mem_cons_of_mem _ (List.mem_append_right _ ht),
        fun s hs => List.mem_cons_of_mem _ (List.mem_append_right _ (hsrc s hs))⟩

/-- C4 (amended): `merge_columns` only folds the explicitly listed source
columns of its 22 groups (and, for `'Other'`, only the six designated
catch-all names) into their targets.  Any column whose label is not a target
or source of some group survives in the output as its own column, unchanged
— it is not bucketed into `'Other'`. -/
theorem c4_unmatched_columns_survive (df : DF) (l : Cell)
    (h : ∀ s ∈ mergeLabels, l ≠ .str s) :
    (merge_columns df).getCol l = df.getCol l := by
  unfold merge_columns
  have hgen : ∀ (specs : List (String × List String)) (d : DF),
      (∀ p ∈ specs, l ≠ .str p.1 ∧ ∀ s ∈ p.2, l ≠ .str s) →
      (specs.foldl (fun d p => add_cols d p.1 p.2) d).getCol l = d.getCol l := by
    intro specs
    induction specs with
    | nil => intro d _; rfl
    | cons p rest ih =>
      intro d hp
      rw [List.foldl_cons, ih _ (fun q hq => hp q (List.mem_cons_of_mem _ hq)),
        getCol_add_cols_ne _ _ _ _ (hp p (List.mem_cons_self _ _)).1
          (hp p (List.mem_cons_self _ _)).2]
  apply hgen
  intro p hp
  obtain ⟨ht, hsrc⟩ := mem_mergeLabels_of_mem hp
  exact ⟨h p.1 ht, fun s hs => h s (hsrc s hs)⟩

/-- A sheet with one column not named in any merge group. -/
def exWeird : DF := ⟨[(.str "Weird Item", [.num 7])]⟩

/-- C4, counterexample: `'Weird Item'` is not consumed — it survives as its
own column of the `merge_columns` output, and the `'Other'` column stays 0:
it is false that every unconsumed column is summed into `'Other'`. -/
theorem c4_counterexample :
    (merge_columns exWeird).hasCol (.str "Weird Item") = true ∧
      (merge_columns exWeird).getCol (.str "Other") = some [.num 0] := by
  constructor
  · with_unfolding_all decide
  · with_unfolding_all decide

/-- C4, witness: the amended theorem at the concrete sheet. -/
theorem c4_unmatched_columns_survive_witness :
    (merge_columns exWeird).getCol (.str "Weird Item") = exWeird.getCol (.str "Weird Item") :=
  c4_unmatched_columns_survive exWeird (.str "Weird Item") (by with_unfolding_all decide)

/-! ## C7 — canonicalization applied twice -/

/-- Is the cell's canonical site form a fixed point of the canonicalization?
(Non-strings count as fixed: on them `merge_sites` raises before rewriting.) -/
def c7fix (v : Cell) : Bool :=
  match v with
  | .str s => canonSite (canonSite s) == canonSite s
  | _ => true

/-- C7 (amended): applying `merge_sites` twice equals applying it once for
every event table each of whose site strings canonicalizes to a fixed point
of the canonicalization — in particular for sites that land on the
configured rule targets, which are all fixed points except the unreachable
`'North Del Monte'`.  Unconditionally the claim fails: removing `'.'`,
`' Street'`, `' Ave'` or `' To '` can leave trailing whitespace that only
the second pass's `strip` removes (see the counterexample). -/
theorem c7_canonicalize_idempotent (df : DF)
    (h : ((df.getCol (.str "Cleanup Site")).getD []).all c7fix = true) :
    (merge_sites df).bind merge_sites = merge_sites df := by
  cases hc : df.getCol (.str "Cleanup Site") with
  | none =>
    have h1 : merge_sites df = .error (.keyError "Cleanup Site") := by
      unfold merge_sites
      rw [hc]
    rw [h1]
    rfl
  | some col =>
    have hfix : col.all c7fix = true := by
      rw [hc] at h
      exact h
    by_cases hs : col.all isStrCell = true
    · have h1 : merge_sites df =
          .ok (df.setCol (.str "Cleanup Site") (col.map canonSiteCell)) := by
        unfold merge_sites
        simp only [hc]
        rw [if_pos hs]
      have hc2 : (df.setCol (.str "Cleanup Site") (col.map canonSiteCell)).getCol
          (.str "Cleanup Site") = some (col.map canonSiteCell) :=
        DF.getCol_setCol_self _ _ _
      have hs2 : (col.map canonSiteCell).all isStrCell = true := by
        rw [List.all_eq_true] at hs ⊢
        intro v hv
        obtain ⟨w, hw, rfl⟩ := List.mem_map.mp hv
        have hw' := hs w hw
        cases w with
        | str s => simp [canonSiteCell, isStrCell]
        | num q => simp [isStrCell] at hw'
        | date t => simp [isStrCell] at hw'
        | nan => simp [isStrCell] at hw'
      have hmap : (col.map canonSiteCell).map canonSiteCell = col.map canonSiteCell := by
        rw [List.map_map]
        apply List.map_congr_left
        intro v hv
        have hstr := List.all_eq_true.mp hs v hv
        have hfx := List.all_eq_true.mp hfix v hv
        cases v with
        | str s =>
          have : canonSite (canonSite s) = canonSite s := by
            simpa [c7fix] using hfx
          simp [Function.comp, canonSiteCell, this]
        | num q => simp [isStrCell] at hstr
        | date t => simp [isStrCell] at hstr
        | nan => simp [isStrCell] at hstr
      have h2 : merge_sites (df.setCol (.str "Cleanup Site") (col.map canonSiteCell)) =
          .ok (df.setCol (.str "Cleanup Site") (col.map canonSiteCell)) := by
        unfold merge_sites
        simp only [hc2]
        rw [if_pos hs2, hmap, setCol_self_of_getCol _ _ _ hc2]
      rw [h1]
      show merge_sites (df.setCol (.str "Cleanup Site") (col.map canonSiteCell)) =
        .ok (df.setCol (.str "Cleanup Site") (col.map canonSiteCell))
      exact h2
    · have h1 : merge_sites df = .error (.attributeError "strip") := by
        unfold merge_sites
        simp only [hc]
        rw [if_neg hs]
      rw [h1]
      rfl

/-- A site string whose canonical form keeps a trailing space. -/
def exDot : DF := ⟨[(.str "Cleanup Site", [.str "A ."])]⟩

/-- C7, counterexample: canonicalizing `"A ."` once gives `"A "` (the
period-removal leaves a trailing space that no rule touches); the second
pass strips it to `"A"`.  So canonicalize-twice differs from
canonicalize-once. -/
theorem c7_counterexample :
    (merge_sites exDot).bind merge_sites ≠ merge_sites exDot := by
  with_unfolding_all decide

/-- A site that canonicalizes to the fixed rule target `'Capitola'`. -/
def exCap : DF := ⟨[(.str "Cleanup Site", [.str "Capitola"])]⟩

/-- C7, witness: the amended theorem at a concrete one-event table. -/
theorem c7_canonicalize_idempotent_witness :
    (merge_sites exCap).bind merge_sites = merge_sites exCap :=
  c7_canonicalize_idempotent exCap (by with_unfolding_all decide)

/-! ## Lemmas about `make_numeric_cols_numeric_again` -/

theorem addMissing_pres (names : List String) (df : DF) (c : Cell) (h : df.hasCol c = true) :
    (names.foldl (fun d c' => if d.hasCol (.str c') then d
      else d.setCol (.str c') (List.replicate d.nrows .nan)) df).getCol c = df.getCol c ∧
    (names.foldl (fun d c' => if d.hasCol (.str c') then d
      else d.setCol (.str c') (List.replicate d.nrows .nan)) df).hasCol c = true := by
  induction names generalizing df with
  | nil => exact ⟨rfl, h⟩
  | cons n rest ih =>
    rw [List.foldl_cons]
    by_cases hb : df.hasCol (.str n) = true
    · rw [if_pos hb]
      exact ih df h
    · rw [if_neg hb]
      have hne : c ≠ .str n := by
        intro he
        rw [he] at h
        rw [h] at hb
        exact hb rfl
      have h1 : (df.setCol (.str n) (List.replicate df.nrows .nan)).hasCol c = true := by
        rw [DF.hasCol_setCol, h]
        simp
      obtain ⟨g1, g2⟩ := ih _ h1
      exact ⟨by rw [g1, DF.getCol_setCol_ne _ _ _ _ hne], g2⟩

theorem addMissing_hasCol_other (names : List String) (df : DF) (l : Cell)
    (hnot : ∀ n ∈ names, l ≠ .str n) :
    (names.foldl (fun d c' => if d.hasCol (.str c') then d
      else d.setCol (.str c') (List.replicate d.nrows .nan)) df).hasCol l = df.hasCol l := by
  induction names generalizing df with
  | nil => rfl
  | cons n rest ih =>
    rw [List.foldl_cons]
    by_cases hb : df.hasCol (.str n) = true
    · rw [if_pos hb]
      exact ih _ (fun x hx => hnot x (List.mem_cons_of_mem _ hx))
    · rw [if_neg hb]
      rw [ih _ (fun x hx => hnot x (List.mem_cons_of_mem _ hx)), DF.hasCol_setCol,
        beq_eq_false_iff_ne.mpr (hnot n (List.mem_cons_self _ _))]
      simp

theorem find?_nonnum_block (names : List String) (d1 : DF) (c : String)
    (hmem : c ∈ names) :
    (names.map (fun n => (Cell.str n, (d1.getCol (.str n)).getD []))).find?
        (fun p => p.1 == Cell.str c) =
      some (Cell.str c, (d1.getCol (.str c)).getD []) := by
  induction names with
  | nil => simp at hmem
  | cons n rest ih =>
    by_cases he : n = c
    · subst he
      rw [List.map_cons, List.find?_cons_of_pos _ (by simp)]
    · have hb : (Cell.str n == Cell.str c) = false := by
        simp [beq_iff_eq, he]
      rw [List.map_cons, List.find?_cons_of_neg _ (by simp [hb])]
      refine ih ?_
      rcases List.mem_cons.mp hmem with h | h
      · exact absurd h.symm he
      · exact h

theorem getCol_mk_append_left {cs ds : List (Cell × List Cell)} {l : Cell}
    {p : Cell × List Cell} (h : cs.find? (fun c => c.1 == l) = some p) :
    (DF.mk (cs ++ ds)).getCol l = some p.2 := by
  simp [DF.getCol, List.find?_append, h]

theorem make_numeric_getCol_nonnum (df : DF) (c : String) (hmem : c ∈ NONNUMERIC_COLS)
    (h : df.hasCol (.str c) = true) :
    (make_numeric_cols_numeric_again df).getCol (.str c) = df.getCol (.str c) := by
  obtain ⟨hg, hh⟩ := addMissing_pres NONNUMERIC_COLS df (.str c) h
  obtain ⟨v, hv⟩ := getCol_of_hasCol _ _ h
  simp only [make_numeric_cols_numeric_again]
  rw [getCol_mk_append_left (find?_nonnum_block NONNUMERIC_COLS _ c hmem)]
  rw [hg, hv]
  rfl

theorem any_congr_fun {α : Type} (l : List α) (p q : α → Bool) (h : ∀ x ∈ l, p x = q x) :
    l.any p = l.any q := by
  induction l with
  | nil => rfl
  | cons x r ih =>
    simp only [List.any_cons, h x (List.mem_cons_self _ _),
      ih (fun y hy => h y (List.mem_cons_of_mem _ hy))]

theorem hasCol_mk_append (cs ds : List (Cell × List Cell)) (l : Cell) :
    (DF.mk (cs ++ ds)).hasCol l = ((DF.mk cs).hasCol l || (DF.mk ds).hasCol l) := by
  simp [DF.hasCol]

theorem hasCol_nonnum_block (names : List String) (d1 : DF) (c : String)
    (h : ∀ n ∈ names, (Cell.str c) ≠ .str n) :
    (DF.mk (names.map (fun n => (Cell.str n, (d1.getCol (.str n)).getD [])))).hasCol
      (.str c) = false := by
  simp only [DF.hasCol]
  rw [List.any_eq_false]
  intro p hp
  obtain ⟨n, hn, rfl⟩ := List.mem_map.mp hp
  simp only [beq_iff_eq]
  intro he
  exact (h n hn) he.symm

theorem hasCol_rest_block (d1 : DF) (c : String) (hmem : c ∉ NONNUMERIC_COLS) :
    (DF.mk ((d1.cols.filter
        (fun p => !(NONNUMERIC_COLS.any (fun s => Cell.str s == p.1)))).map
      (fun p => (p.1, p.2.map toNumericCoerce)))).hasCol (.str c) = d1.hasCol (.str c) := by
  simp only [DF.hasCol, List.any_map, List.any_filter, Function.comp]
  refine Eq.trans (any_congr_fun _ _ (fun p => p.1 == Cell.str c) ?_) rfl
  intro p _
  by_cases hp : (p.1 == Cell.str c) = true
  · have hp1 : p.1 = Cell.str c := by simpa [beq_iff_eq] using hp
    have hno : (NONNUMERIC_COLS.any fun s => Cell.str s == p.1) = false := by
      rw [List.any_eq_false]
      intro s hs
      rw [hp1]
      simp only [beq_iff_eq, Cell.str.injEq]
      intro he
      exact hmem (he ▸ hs)
    rw [hno, hp]
    simp [hp]
  · have hp' : (p.1 == Cell.str c) = false := by simpa using hp
    rw [hp']
    simp [hp']

theorem make_numeric_hasCol_other (df : DF) (c : String) (hmem : c ∉ NONNUMERIC_COLS) :
    (make_numeric_cols_numeric_again df).hasCol (.str c) = df.hasCol (.str c) := by
  have hnot : ∀ n ∈ NONNUMERIC_COLS, (Cell.str c) ≠ .str n := by
    intro n hn he
    cases he
    exact hmem hn
  simp only [make_numeric_cols_numeric_again]
  rw [hasCol_mk_append, hasCol_nonnum_block NONNUMERIC_COLS _ c hnot,
    hasCol_rest_block _ c hmem]
  simp only [Bool.false_or]
  exact addMissing_hasCol_other NONNUMERIC_COLS df _ hnot

/-! ## C6 — validity of reconciled rows -/

theorem getD_mem_of_lt {l : List Cell} {j : Nat} (h : j < l.length) : l.getD j .nan ∈ l := by
  rw [List.getD_eq_getElem?_getD, List.getElem?_eq_getElem h]
  exact List.getElem_mem h

theorem site01_of_ne_nan (w : Cell) (h : site01ToNan w ≠ .nan) :
    (site01ToNan w == .num 0) = false ∧ (site01ToNan w == .num 1) = false := by
  unfold site01ToNan at h ⊢
  by_cases hb : (w == .num 0 || w == .num 1) = true
  · rw [if_pos hb] at h
    exact absurd rfl h
  · rw [if_neg hb] at h ⊢
    rw [Bool.or_eq_true] at hb
    push_neg at hb
    exact ⟨by simpa using hb.1, by simpa using hb.2⟩

theorem toDatetime_of_ne_nan (w : Cell) (h : toDatetimeCell w ≠ .nan) :
    isDateCell (toDatetimeCell w) = true := by
  cases w with
  | num q => rfl
  | date t => rfl
  | nan => exact absurd rfl h
  | str s =>
    simp only [toDatetimeCell] at h ⊢
    cases hp : parseDateQ s with
    | none => rw [hp] at h; exact absurd rfl h
    | some t => rfl

/-- The row-validity checks of C6 (amended): every date cell of the output is
a parsed timestamp, and every site cell is non-null and distinct from the
numeric artifacts 0 and 1. -/
def c6check (out : DF) : Bool :=
  ((out.getCol (.str "Date")).getD []).all isDateCell &&
  ((out.getCol (.str "Cleanup Site")).getD []).all
    (fun v => !(v == .nan) && !(v == .num 0) && !(v == .num 1))

set_option maxHeartbeats 2000000 in
/-- C6 (amended): whenever `read_sheet` succeeds, every row of its output has
a non-null date that parsed as a timestamp, and a non-null site that is not
the numeric artifact 0 or 1; rows failing these checks were dropped, not
errored on.  (The unamended claim — that every surviving site is
non-numeric — is refuted by the counterexample: only 0 and 1 are replaced
with `NaN`, so a numeric site such as 2 survives.) -/
theorem c6_row_validity (df out : DF) (hok : read_sheet df = .ok out) :
    c6check out = true := by
  unfold read_sheet at hok
  split at hok
  · exact absurd hok (by simp)
  · rename_i d1 h1
    split at hok
    · exact absurd hok (by simp)
    · rename_i d2 h2
      split at hok
      · exact absurd hok (by simp)
      · rename_i d3 h3
        have hout : dropDateStep (toDatetimeStep (make_numeric_cols_numeric_again
            (dropSiteDateStep d3))) = out := Except.ok.inj hok
        unfold replaceSiteStep at h2
        split at h2
        · exact absurd h2 (by simp)
        · rename_i sc hsc
          have hd2 : d2 = d1.setCol (.str "Cleanup Site") (sc.map site01ToNan) :=
            (Except.ok.inj h2).symm
          unfold replaceDateStep at h3
          split at h3
          · exact absurd h3 (by simp)
          · rename_i dc hdc
            have hd3 : d3 = d2.setCol (.str "Date") (dc.map date0ToNan) :=
              (Except.ok.inj h3).symm
            -- the site column through the pipeline
            have g3s : d3.getCol (.str "Cleanup Site") = some (sc.map site01ToNan) := by
              rw [hd3, DF.getCol_setCol_ne _ _ _ _ (by decide), hd2, DF.getCol_setCol_self]
            have gDs : (dropSiteDateStep d3).getCol (.str "Cleanup Site") =
                some (maskFilter (dropSiteDateMask d3) 0 (sc.map site01ToNan)) := by
              unfold dropSiteDateStep
              rw [DF.getCol_filterRows, g3s]
              rfl
            have gMs : (make_numeric_cols_numeric_again (dropSiteDateStep d3)).getCol
                (.str "Cleanup Site") = (dropSiteDateStep d3).getCol (.str "Cleanup Site") :=
              make_numeric_getCol_nonnum _ _ (by decide)
                (hasCol_of_getCol _ _ _ gDs)
            have gTs : (toDatetimeStep (make_numeric_cols_numeric_again
                (dropSiteDateStep d3))).getCol (.str "Cleanup Site") =
                some (maskFilter (dropSiteDateMask d3) 0 (sc.map site01ToNan)) := by
              unfold toDatetimeStep
              rw [DF.getCol_setCol_ne _ _ _ _ (by decide), gMs, gDs]
            -- the date column at the datetime step
            have gTd : (toDatetimeStep (make_numeric_cols_numeric_again
                (dropSiteDateStep d3))).getCol (.str "Date") =
                some ((((make_numeric_cols_numeric_again (dropSiteDateStep d3)).getCol
                  (.str "Date")).getD []).map toDatetimeCell) := by
              unfold toDatetimeStep
              rw [DF.getCol_setCol_self]
            -- output columns
            have gOd : out.getCol (.str "Date") =
                some (maskFilter (dropDateMask (toDatetimeStep (make_numeric_cols_numeric_again
                  (dropSiteDateStep d3)))) 0
                  ((((make_numeric_cols_numeric_again (dropSiteDateStep d3)).getCol
                    (.str "Date")).getD []).map toDatetimeCell)) := by
              rw [← hout]
              unfold dropDateStep
              rw [DF.getCol_filterRows, gTd]
              rfl
            have gOs : out.getCol (.str "Cleanup Site") =
                some (maskFilter (dropDateMask (toDatetimeStep (make_numeric_cols_numeric_again
                  (dropSiteDateStep d3)))) 0
                  (maskFilter (dropSiteDateMask d3) 0 (sc.map site01ToNan))) := by
              rw [← hout]
              unfold dropDateStep
              rw [DF.getCol_filterRows, gTs]
              rfl
            unfold c6check
            rw [gOd, gOs]
            simp only [Option.getD_some]
            rw [Bool.and_eq_true]
            constructor
            · rw [List.all_eq_true]
              intro v hv
              obtain ⟨j, hj, hgd, hkj⟩ := mem_maskFilter hv
              rw [Nat.zero_add] at hkj
              unfold dropDateMask at hkj
              rw [Bool.not_eq_eq_eq_not, Bool.not_true, beq_eq_false_iff_ne] at hkj
              unfold cellAt at hkj
              rw [gTd] at hkj
              simp only [Option.getD_some] at hkj
              have hvne : v ≠ .nan := by
                rw [← hgd]
                simpa using hkj
              have hvm : v ∈ (((make_numeric_cols_numeric_again (dropSiteDateStep d3)).getCol
                  (.str "Date")).getD []).map toDatetimeCell := by
                rw [← hgd]
                exact getD_mem_of_lt hj
              obtain ⟨w, _, rfl⟩ := List.mem_map.mp hvm
              exact toDatetime_of_ne_nan w hvne
            · rw [List.all_eq_true]
              intro v hv
              have hv2 : v ∈ maskFilter (dropSiteDateMask d3) 0 (sc.map site01ToNan) :=
                (maskFilter_sublist _ _ _).subset hv
              obtain ⟨j, hj, hgd, hkj⟩ := mem_maskFilter hv2
              rw [Nat.zero_add] at hkj
              unfold dropSiteDateMask at hkj
              rw [Bool.and_eq_true] at hkj
              have hsite := hkj.1
              rw [Bool.not_eq_eq_eq_not, Bool.not_true, beq_eq_false_iff_ne] at hsite
              unfold cellAt at hsite
              rw [g3s] at hsite
              simp only [Option.getD_some] at hsite
              have hvne : v ≠ .nan := by
                rw [← hgd]
                simpa using hsite
              have hvm : v ∈ sc.map site01ToNan := by
                rw [← hgd]
                exact getD_mem_of_lt hj
              obtain ⟨w, _, rfl⟩ := List.mem_map.mp hvm
              obtain ⟨z0, z1⟩ := site01_of_ne_nan w hvne
              rw [z0, z1, beq_eq_false_iff_ne.mpr hvne]
              rfl

/-- A sheet whose site cell is the number 2 (not a string, not 0 or 1). -/
def exSiteNum : DF := ⟨[(.str "Date", [.date 1]), (.str "Cleanup Site", [.num 2])]⟩

/-- The site column of a successful `read_sheet` run. -/
def okSiteCol (r : Except CleanupErr DF) : Option (List Cell) :=
  match r with
  | .ok o => o.getCol (.str "Cleanup Site")
  | .error _ => none

/-- C6, counterexample: `read_sheet` only replaces the site values 0 and 1
with `NaN` (line 566), so a sheet whose site is the number 2 reconciles
successfully and its output row keeps the numeric site — refuting the claim
that every surviving row has a non-numeric site string. -/
theorem c6_counterexample : okSiteCol (read_sheet exSiteNum) = some [.num 2] := by
  with_unfolding_all decide

/-- A plainly valid one-row sheet. -/
def exGood : DF := ⟨[(.str "Date", [.date 1]), (.str "Cleanup Site", [.str "Beach"])]⟩

/-- The reconciled output of `exGood` (checked against `read_sheet` in the
witness below). -/
def exGoodOut : DF :=
  ⟨[(.str "Date", [.date 1]),
    (.str "Data Collection", [.nan]),
    (.str "Duration (Hrs)", [.nan]),
    (.str "County/City", [.nan]),
    (.str "Cleanup Site", [.str "Beach"]),
    (.str "Cleaned Size (Sq Miles)", [.nan]),
    (.str "Adult Volunteers", [.nan]),
    (.str "Youth Volunteers", [.nan]),
    (.str "Trash (lbs)", [.nan]),
    (.str "Recycling (lbs)", [.nan]),
    (.str "Type Of Cleanup", [.nan])]⟩

/-- C6, witness: the amended theorem at the concrete valid sheet. -/
theorem c6_row_validity_witness : c6check exGoodOut = true :=
  c6_row_validity exGood exGoodOut (by with_unfolding_all decide)

/-! ## Column tracking through the tail of `read_sheet` (for C8/C9) -/

set_option maxHeartbeats 2000000 in
theorem read_sheet_ok_sublist (df out : DF) (hok : read_sheet df = .ok out) (c : String)
    (hmem : c ∈ NONNUMERIC_COLS) (hc2 : Cell.str c ≠ .str "Cleanup Site")
    (hc3 : Cell.str c ≠ .str "Date") :
    ∀ d1 L, volunteerStep (rename_data (orient_data df)) = .ok d1 →
      d1.getCol (.str c) = some L →
      ∃ O, out.getCol (.str c) = some O ∧ O.Sublist L := by
  intro d1 L h1 hL
  unfold read_sheet at hok
  split at hok
  · rename_i e he
    rw [h1] at he
    exact absurd he (by simp)
  · rename_i d1' h1'
    rw [h1] at h1'
    have hd1 : d1' = d1 := (Except.ok.inj h1').symm
    subst hd1
    split at hok
    · exact absurd hok (by simp)
    · rename_i d2 h2
      split at hok
      · exact absurd hok (by simp)
      · rename_i d3 h3
        have hout : dropDateStep (toDatetimeStep (make_numeric_cols_numeric_again
            (dropSiteDateStep d3))) = out := Except.ok.inj hok
        unfold replaceSiteStep at h2
        split at h2
        · exact absurd h2 (by simp)
        · rename_i sc hsc
          have hd2 : d2 = d1'.setCol (.str "Cleanup Site") (sc.map site01ToNan) :=
            (Except.ok.inj h2).symm
          unfold replaceDateStep at h3
          split at h3
          · exact absurd h3 (by simp)
          · rename_i dc hdc
            have hd3 : d3 = d2.setCol (.str "Date") (dc.map date0ToNan) :=
              (Except.ok.inj h3).symm
            have g3 : d3.getCol (.str c) = some L := by
              rw [hd3, DF.getCol_setCol_ne _ _ _ _ hc3, hd2,
                DF.getCol_setCol_ne _ _ _ _ hc2, hL]
            have gD : (dropSiteDateStep d3).getCol (.str c) =
                some (maskFilter (dropSiteDateMask d3) 0 L) := by
              unfold dropSiteDateStep
              rw [DF.getCol_filterRows, g3]
              rfl
            have gM : (make_numeric_cols_numeric_again (dropSiteDateStep d3)).getCol
                (.str c) = (dropSiteDateStep d3).getCol (.str c) :=
              make_numeric_getCol_nonnum _ _ hmem (hasCol_of_getCol _ _ _ gD)
            have gT : (toDatetimeStep (make_numeric_cols_numeric_again
                (dropSiteDateStep d3))).getCol (.str c) =
                some (maskFilter (dropSiteDateMask d3) 0 L) := by
              unfold toDatetimeStep
              rw [DF.getCol_setCol_ne _ _ _ _ hc3, gM, gD]
            refine ⟨maskFilter (dropDateMask (toDatetimeStep (make_numeric_cols_numeric_again
              (dropSiteDateStep d3)))) 0 (maskFilter (dropSiteDateMask d3) 0 L), ?_, ?_⟩
            · rw [← hout]
              unfold dropDateStep
              rw [DF.getCol_filterRows, gT]
              rfl
            · exact (maskFilter_sublist _ _ _).trans (maskFilter_sublist _ _ _)

set_option maxHeartbeats 2000000 in
theorem read_sheet_ok_hasCol_other (df out : DF) (hok : read_sheet df = .ok out)
    (c : String) (hnn : c ∉ NONNUMERIC_COLS) :
    ∀ d1, volunteerStep (rename_data (orient_data df)) = .ok d1 →
      out.hasCol (.str c) = d1.hasCol (.str c) := by
  intro d1 h1
  have hcs : Cell.str c ≠ .str "Cleanup Site" := by
    intro he
    cases he
    exact hnn (by decide)
  have hcd : Cell.str c ≠ .str "Date" := by
    intro he
    cases he
    exact hnn (by decide)
  unfold read_sheet at hok
  split at hok
  · rename_i e he
    rw [h1] at he
    exact absurd he (by simp)
  · rename_i d1' h1'
    rw [h1] at h1'
    have hd1 : d1' = d1 := (Except.ok.inj h1').symm
    subst hd1
    split at hok
    · exact absurd hok (by simp)
    · rename_i d2 h2
      split at hok
      · exact absurd hok (by simp)
      · rename_i d3 h3
        have hout : dropDateStep (toDatetimeStep (make_numeric_cols_numeric_again
            (dropSiteDateStep d3))) = out := Except.ok.inj hok
        unfold replaceSiteStep at h2
        split at h2
        · exact absurd h2 (by simp)
        · rename_i sc hsc
          have hd2 : d2 = d1'.setCol (.str "Cleanup Site") (sc.map site01ToNan) :=
            (Except.ok.inj h2).symm
          unfold replaceDateStep at h3
          split at h3
          · exact absurd h3 (by simp)
          · rename_i dc hdc
            have hd3 : d3 = d2.setCol (.str "Date") (dc.map date0ToNan) :=
              (Except.ok.inj h3).symm
            rw [← hout]
            unfold dropDateStep
            rw [DF.hasCol_filterRows]
            unfold toDatetimeStep
            rw [DF.hasCol_setCol, make_numeric_hasCol_other _ _ hnn]
            unfold dropSiteDateStep
            rw [DF.hasCol_filterRows, hd3, DF.hasCol_setCol, hd2, DF.hasCol_setCol,
              beq_eq_false_iff_ne.mpr hcs, beq_eq_false_iff_ne.mpr hcd]
            simp

/-! ## C8 / C9 — the Volunteer Hours special case -/

theorem replace01_ne_zero (w : Cell) : (replace01 w == .num 0) = false := by
  unfold replace01
  by_cases hb : (w == .num 0) = true
  · rw [if_pos hb]
    rw [beq_eq_false_iff_ne]
    intro he
    have : (1 : ℚ) = 0 := Cell.num.inj he
    exact one_ne_zero this
  · rw [if_neg hb]
    simpa using hb

/-- C8 (amended): for every sheet holding a legacy `'Volunteer Hours'`
column after orientation and renaming AND a volunteer-count column
`'Adult Volunteers'`, when `read_sheet` succeeds the output contains no
`'Volunteer Hours'` column, and its duration column consists of (a subset
of the rows of) `Volunteer Hours / Adult Volunteers`, where the divisor has
zeros replaced by 1 and missing counts filled with 1.  (The unamended claim
quantifies over every sheet containing `'Volunteer Hours'`; the
counterexample shows a sheet with `'Volunteer Hours'` but no volunteer-count
column makes `read_sheet` raise `KeyError: 'Adult Volunteers'` instead of
producing any output.) -/
theorem c8_volunteer_hours (df out : DF)
    (hvh : (rename_data (orient_data df)).hasCol (.str "Volunteer Hours") = true)
    (hav : (rename_data (orient_data df)).hasCol (.str "Adult Volunteers") = true)
    (hok : read_sheet df = .ok out) :
    out.hasCol (.str "Volunteer Hours") = false ∧
    out.hasCol (.str "Duration (Hrs)") = true ∧
    ((out.getCol (.str "Duration (Hrs)")).getD []).Sublist
      (List.zipWith Cell.div
        (((rename_data (orient_data df)).getCol (.str "Volunteer Hours")).getD [])
        (((((rename_data (orient_data df)).getCol (.str "Adult Volunteers")).getD []).map
          replace01).map fillNan1)) := by
  obtain ⟨av, havc⟩ := getCol_of_hasCol _ _ hav
  obtain ⟨d1, h1, gAV, gDur, hVH1⟩ := volunteerStep_ok_data _ av hvh havc
  obtain ⟨O, hO, hsub⟩ := read_sheet_ok_sublist df out hok "Duration (Hrs)" (by decide)
    (by decide) (by decide) d1 _ h1 gDur
  refine ⟨?_, hasCol_of_getCol _ _ _ hO, ?_⟩
  · rw [read_sheet_ok_hasCol_other df out hok "Volunteer Hours" (by decide) d1 h1, hVH1]
  · rw [hO, havc]
    simpa using hsub

/-- C9: whenever a sheet (after orientation and renaming) contains
`'Volunteer Hours'` and `read_sheet` succeeds, the returned volunteer counts
are the `replace(0, 1)`-rewritten original counts (restricted to the
surviving rows): the zero-to-one substitution of line 560 is visible in the
output's `'Adult Volunteers'` column, which therefore never contains 0. -/
theorem c9_zero_volunteers_replaced (df out : DF)
    (hvh : (rename_data (orient_data df)).hasCol (.str "Volunteer Hours") = true)
    (hok : read_sheet df = .ok out) :
    out.hasCol (.str "Adult Volunteers") = true ∧
    ((out.getCol (.str "Adult Volunteers")).getD []).Sublist
      ((((rename_data (orient_data df)).getCol (.str "Adult Volunteers")).getD []).map
        replace01) ∧
    ((out.getCol (.str "Adult Volunteers")).getD []).all
      (fun v => !(v == .num 0)) = true := by
  -- under a successful run, the Adult Volunteers column must have existed
  have hav : ∃ av, (rename_data (orient_data df)).getCol (.str "Adult Volunteers") =
      some av := by
    cases hg : (rename_data (orient_data df)).getCol (.str "Adult Volunteers") with
    | some av => exact ⟨av, rfl⟩
    | none =>
      exfalso
      have hstep : volunteerStep (rename_data (orient_data df)) =
          .error (.keyError "Adult Volunteers") := by
        unfold volunteerStep
        rw [if_pos hvh, hg]
      unfold read_sheet at hok
      rw [hstep] at hok
      exact absurd hok (by simp)
  obtain ⟨av, havc⟩ := hav
  obtain ⟨d1, h1, gAV, gDur, hVH1⟩ := volunteerStep_ok_data _ av hvh havc
  obtain ⟨O, hO, hsub⟩ := read_sheet_ok_sublist df out hok "Adult Volunteers" (by decide)
    (by decide) (by decide) d1 _ h1 gAV
  refine ⟨hasCol_of_getCol _ _ _ hO, ?_, ?_⟩
  · rw [hO, havc]
    simpa using hsub
  · rw [hO]
    simp only [Option.getD_some]
    rw [List.all_eq_true]
    intro v hv
    have hvm : v ∈ av.map replace01 := hsub.subset hv
    obtain ⟨w, _, rfl⟩ := List.mem_map.mp hvm
    rw [replace01_ne_zero w]
    rfl

/-- A sheet with `'Volunteer Hours'` but no volunteer-count column. -/
def exVH : DF :=
  ⟨[(.str "Date", [.date 1]), (.str "Cleanup Site", [.str "Beach"]),
    (.str "Volunteer Hours", [.num 5])]⟩

/-- C8, counterexample: a sheet containing the legacy `'Volunteer Hours'`
column but no `'Adult Volunteers'` column does not get a duration column at
all — `read_sheet` raises `KeyError: 'Adult Volunteers'` at line 560. -/
theorem c8_counterexample :
    read_sheet exVH = .error (.keyError "Adult Volunteers") := by
  with_unfolding_all decide

/-- A sheet exercising the `'Volunteer Hours'` conversion, with a zero
volunteer count. -/
def exVol : DF :=
  ⟨[(.str "Date", [.date 1]), (.str "Cleanup Site", [.str "Beach"]),
    (.str "Volunteer Hours", [.num 5]), (.str "Adult Volunteers", [.num 0])]⟩

/-- The reconciled output of `exVol`: the zero volunteer count shows up as 1
and the duration is `5 / 1 = 5` (checked against `read_sheet` in the
witnesses below). -/
def exVolOut : DF :=
  ⟨[(.str "Date", [.date 1]),
    (.str "Data Collection", [.nan]),
    (.str "Duration (Hrs)", [.num 5]),
    (.str "County/City", [.nan]),
    (.str "Cleanup Site", [.str "Beach"]),
    (.str "Cleaned Size (Sq Miles)", [.nan]),
    (.str "Adult Volunteers", [.num 1]),
    (.str "Youth Volunteers", [.nan]),
    (.str "Trash (lbs)", [.nan]),
    (.str "Recycling (lbs)", [.nan]),
    (.str "Type Of Cleanup", [.nan])]⟩

/-- C8, witness: the amended theorem at the concrete sheet. -/
theorem c8_volunteer_hours_witness :
    exVolOut.hasCol (.str "Volunteer Hours") = false ∧
    exVolOut.hasCol (.str "Duration (Hrs)") = true ∧
    ((exVolOut.getCol (.str "Duration (Hrs)")).getD []).Sublist
      (List.zipWith Cell.div
        (((rename_data (orient_data exVol)).getCol (.str "Volunteer Hours")).getD [])
        (((((rename_data (orient_data exVol)).getCol (.str "Adult Volunteers")).getD []).map
          replace01).map fillNan1)) :=
  c8_volunteer_hours exVol exVolOut (by with_unfolding_all decide)
    (by with_unfolding_all decide) (by with_unfolding_all decide)

/-- C9, witness: the theorem at the concrete sheet — the input count 0 is
returned as 1. -/
theorem c9_zero_volunteers_replaced_witness :
    exVolOut.hasCol (.str "Adult Volunteers") = true ∧
    ((exVolOut.getCol (.str "Adult Volunteers")).getD []).Sublist
      ((((rename_data (orient_data exVol)).getCol (.str "Adult Volunteers")).getD []).map
        replace01) ∧
    ((exVolOut.getCol (.str "Adult Volunteers")).getD []).all
      (fun v => !(v == .num 0)) = true :=
  c9_zero_volunteers_replaced exVol exVolOut (by with_unfolding_all decide)
    (by with_unfolding_all decide)

/-! ## C1 — row-total conservation under `merge_columns` -/

/-- The numeric total of row `i` across all columns (string/missing cells
count 0). -/
def rowSum (df : DF) (i : Nat) : ℚ :=
  (df.cols.map (fun c => cellQ (c.2.getD i .nan))).sum

/-- Do all cells of the frame hold plain numbers? -/
def allNumDF (df : DF) : Bool := df.cols.all (fun c => c.2.all isNumCell)

theorem getCol_mem (df : DF) (l : Cell) (v : List Cell) (h : df.getCol l = some v) :
    ∃ c, c ∈ df.cols ∧ c.2 = v := by
  simp only [DF.getCol] at h
  rcases hf : df.cols.find? (fun c => c.1 == l) with _ | c0
  · rw [hf] at h
    exact absurd h (by simp)
  · rw [hf] at h
    exact ⟨c0, List.mem_of_find?_eq_some hf, by simpa using h⟩

theorem allNum_getCol {df : DF} {l : Cell} {col : List Cell} (h : allNumDF df = true)
    (hc : df.getCol l = some col) : col.all isNumCell = true := by
  obtain ⟨c, hmem, hv⟩ := getCol_mem df l col hc
  rw [← hv]
  exact List.all_eq_true.mpr (fun v hvm =>
    List.all_eq_true.mp (List.all_eq_true.mp h c hmem) v hvm)

theorem isObj_false_of_allNum {col : List Cell} (h : col.all isNumCell = true) :
    isObjectDtype col = false := by
  rw [isObjectDtype, List.any_eq_false]
  intro v hv
  have := List.all_eq_true.mp h v hv
  cases v with
  | num q => simp [isStrCell]
  | str s => simp [isNumCell] at this
  | date t => simp [isNumCell] at this
  | nan => simp [isNumCell] at this

theorem num_getD_of_all {col : List Cell} {i : Nat} (h : col.all isNumCell = true)
    (hi : i < col.length) : ∃ q, col.getD i .nan = .num q := by
  have hmem : col.getD i .nan ∈ col := getD_mem_of_lt hi
  have := List.all_eq_true.mp h _ hmem
  cases hv : col.getD i .nan with
  | num q => exact ⟨q, rfl⟩
  | str s => rw [hv] at this; simp [isNumCell] at this
  | date t => rw [hv] at this; simp [isNumCell] at this
  | nan => rw [hv] at this; simp [isNumCell] at this

theorem getD_zipWith_add {tc sc : List Cell} {i n : Nat} (ht : tc.length = n)
    (hs : sc.length = n) (hi : i < n) :
    (List.zipWith Cell.add tc sc).getD i .nan =
      Cell.add (tc.getD i .nan) (sc.getD i .nan) := by
  have hlen : (List.zipWith Cell.add tc sc).length = n := by
    rw [List.length_zipWith, ht, hs, Nat.min_self]
  rw [List.getD_eq_getElem?_getD, List.getElem?_eq_getElem (by omega),
    List.getElem_zipWith, List.getD_eq_getElem?_getD, List.getD_eq_getElem?_getD,
    List.getElem?_eq_getElem (by omega), List.getElem?_eq_getElem (by omega)]
  rfl

theorem getD_replicate_lt {n i : Nat} {v d : Cell} (hi : i < n) :
    (List.replicate n v).getD i d = v := by
  rw [List.getD_eq_getElem?_getD, List.getElem?_eq_getElem (by simpa using hi)]
  simp

/-- Sum of the per-column row-`i` readings of a column list. -/
def colsSum (cs : List (Cell × List Cell)) (i : Nat) : ℚ :=
  (cs.map (fun c => cellQ (c.2.getD i .nan))).sum

theorem rowSum_eq_colsSum (df : DF) (i : Nat) : rowSum df i = colsSum df.cols i := rfl

theorem colsSum_setColGo (l : Cell) (v : List Cell) (i : Nat) :
    ∀ (cs : List (Cell × List Cell)) (c0 : Cell × List Cell),
      cs.find? (fun c => c.1 == l) = some c0 →
      colsSum (setColGo l v cs) i + cellQ (c0.2.getD i .nan) =
        colsSum cs i + cellQ (v.getD i .nan) := by
  intro cs
  induction cs with
  | nil => intro c0 h; simp at h
  | cons c rest ih =>
    intro c0 h
    by_cases hb : (c.1 == l) = true
    · rw [List.find?_cons_of_pos _ (by simpa using hb)] at h
      have hc0 : c = c0 := by simpa using h
      subst hc0
      simp only [setColGo, hb, if_pos, colsSum, List.map_cons, List.sum_cons]
      ring
    · rw [List.find?_cons_of_neg _ (by simpa using hb)] at h
      simp only [setColGo, hb, if_neg, Bool.false_eq_true, not_false_iff, colsSum,
        List.map_cons, List.sum_cons]
      have := ih c0 h
      simp only [colsSum] at this
      linarith

theorem rowSum_setCol_found (df : DF) (l : Cell) (v tc : List Cell) (i : Nat)
    (h : df.getCol l = some tc) :
    rowSum (df.setCol l v) i + cellQ (tc.getD i .nan) =
      rowSum df i + cellQ (v.getD i .nan) := by
  have hc : df.hasCol l = true := hasCol_of_getCol _ _ _ h
  simp only [DF.getCol] at h
  rcases hf : df.cols.find? (fun c => c.1 == l) with _ | c0
  · rw [hf] at h; exact absurd h (by simp)
  · rw [hf] at h
    have htc : c0.2 = tc := by simpa using h
    simp only [DF.setCol, hc, if_pos, rowSum_eq_colsSum]
    rw [← htc]
    exact colsSum_setColGo l v i df.cols c0 hf

theorem rowSum_setCol_new (df : DF) (l : Cell) (v : List Cell) (i : Nat)
    (h : df.hasCol l = false) :
    rowSum (df.setCol l v) i = rowSum df i + cellQ (v.getD i .nan) := by
  simp only [DF.setCol, h, if_neg, Bool.false_eq_true, not_false_iff, rowSum_eq_colsSum,
    colsSum, List.map_append, List.sum_append]
  simp

theorem colsSum_filter_ne (l : Cell) (i : Nat) :
    ∀ (cs : List (Cell × List Cell)) (c0 : Cell × List Cell),
      (cs.map Prod.fst).Nodup →
      cs.find? (fun c => c.1 == l) = some c0 →
      colsSum (cs.filter (fun c => !(c.1 == l))) i + cellQ (c0.2.getD i .nan) =
        colsSum cs i := by
  intro cs
  induction cs with
  | nil => intro c0 _ h; simp at h
  | cons c rest ih =>
    intro c0 hnd h
    rw [List.map_cons, List.nodup_cons] at hnd
    by_cases hb : (c.1 == l) = true
    · rw [List.find?_cons_of_pos _ (by simpa using hb)] at h
      have hc0 : c = c0 := by simpa using h
      subst hc0
      have hc1 : c.1 = l := by simpa [beq_iff_eq] using hb
      have hrest : rest.filter (fun c' => !(c'.1 == l)) = rest := by
        rw [List.filter_eq_self]
        intro c' hc'
        have : c'.1 ≠ l := by
          intro he
          apply hnd.1
          rw [hc1, ← he]
          exact List.mem_map.mpr ⟨c', hc', rfl⟩
        simpa using this
      rw [List.filter_cons_of_neg (by simp [hb]), hrest]
      simp only [colsSum, List.map_cons, List.sum_cons]
      ring
    · rw [List.find?_cons_of_neg _ (by simpa using hb)] at h
      rw [List.filter_cons_of_pos (by simp [hb])]
      simp only [colsSum, List.map_cons, List.sum_cons]
      have := ih c0 hnd.2 h
      simp only [colsSum] at this
      linarith

theorem all_num_setColGo (l : Cell) (v : List Cell) (hv : v.all isNumCell = true) :
    ∀ cs : List (Cell × List Cell), cs.all (fun c => c.2.all isNumCell) = true →
      (setColGo l v cs).all (fun c => c.2.all isNumCell) = true := by
  intro cs
  induction cs with
  | nil => intro _; rfl
  | cons c rest ih =>
    intro h
    rw [List.all_cons, Bool.and_eq_true] at h
    by_cases hb : (c.1 == l) = true
    · simp only [setColGo, hb, if_pos, List.all_cons, Bool.and_eq_true]
      exact ⟨hv, h.2⟩
    · simp only [setColGo, hb, if_neg, Bool.false_eq_true, not_false_iff, List.all_cons,
        Bool.and_eq_true]
      exact ⟨h.1, ih h.2⟩

theorem allNumDF_setCol (df : DF) (l : Cell) (v : List Cell) (h : allNumDF df = true)
    (hv : v.all isNumCell = true) : allNumDF (df.setCol l v) = true := by
  by_cases hb : df.hasCol l = true
  · simp only [DF.setCol, hb, if_pos, allNumDF]
    exact all_num_setColGo l v hv df.cols h
  · simp only [DF.setCol, hb, if_neg, Bool.false_eq_true, not_false_iff, allNumDF,
      List.all_append]
    rw [Bool.and_eq_true]
    exact ⟨h, by simpa using hv⟩

theorem allNumDF_dropAll (df : DF) (l : Cell) (h : allNumDF df = true) :
    allNumDF (df.dropColAll l) = true := by
  simp only [allNumDF, DF.dropColAll]
  rw [List.all_eq_true]
  intro c hc
  exact List.all_eq_true.mp h c (List.mem_filter.mp hc).1

theorem rect_setColGo (l : Cell) (v : List Cell) (n : Nat) (hv : v.length = n) :
    ∀ cs : List (Cell × List Cell), (∀ c ∈ cs, c.2.length = n) →
      ∀ c ∈ setColGo l v cs, c.2.length = n := by
  intro cs
  induction cs with
  | nil => intro _ c hc; simp [setColGo] at hc
  | cons c0 rest ih =>
    intro h c hc
    by_cases hb : (c0.1 == l) = true
    · rw [setColGo, if_pos hb] at hc
      rcases List.mem_cons.mp hc with rfl | hmem
      · exact hv
      · exact h c (List.mem_cons_of_mem _ hmem)
    · rw [setColGo, if_neg (by simpa using hb)] at hc
      rcases List.mem_cons.mp hc with rfl | hmem
      · exact h c (List.mem_cons_self _ _)
      · exact ih (fun c' hc' => h c' (List.mem_cons_of_mem _ hc')) c hmem

theorem rect_setCol (df : DF) (l : Cell) (v : List Cell) (n : Nat)
    (h : ∀ c ∈ df.cols, c.2.length = n) (hv : v.length = n) :
    ∀ c ∈ (df.setCol l v).cols, c.2.length = n := by
  by_cases hb : df.hasCol l = true
  · simp only [DF.setCol, hb, if_pos]
    exact rect_setColGo l v n hv df.cols h
  · simp only [DF.setCol, hb, if_neg, Bool.false_eq_true, not_false_iff]
    intro c hc
    rcases List.mem_append.mp hc with hmem | hmem
    · exact h c hmem
    · rw [List.mem_singleton.mp hmem]
      exact hv

theorem rect_dropAll (df : DF) (l : Cell) (n : Nat) (h : ∀ c ∈ df.cols, c.2.length = n) :
    ∀ c ∈ (df.dropColAll l).cols, c.2.length = n := by
  intro c hc
  exact h c (List.mem_filter.mp hc).1

theorem labels_dropAll (df : DF) (l : Cell) :
    (df.dropColAll l).labels = df.labels.filter (fun x => !(x == l)) := by
  simp only [DF.dropColAll, DF.labels]
  induction df.cols with
  | nil => rfl
  | cons c rest ih =>
    by_cases hb : (c.1 == l) = true
    · rw [List.filter_cons_of_neg (by simp [hb]), List.map_cons,
        List.filter_cons_of_neg (by simp [hb]), ih]
    · rw [List.filter_cons_of_pos (by simp [hb]), List.map_cons, List.map_cons,
        List.filter_cons_of_pos (by simp [hb]), ih]

theorem rowSum_dropAll (df : DF) (l : Cell) (sc : List Cell) (i : Nat)
    (hnd : df.labels.Nodup) (h : df.getCol l = some sc) :
    rowSum (df.dropColAll l) i + cellQ (sc.getD i .nan) = rowSum df i := by
  simp only [DF.getCol] at h
  rcases hf : df.cols.find? (fun c => c.1 == l) with _ | c0
  · rw [hf] at h; exact absurd h (by simp)
  · rw [hf] at h
    have hsc : c0.2 = sc := by simpa using h
    simp only [DF.dropColAll, rowSum_eq_colsSum]
    rw [← hsc]
    exact colsSum_filter_ne l i df.cols c0 hnd hf

theorem all_num_zipWith_add (tc sc : List Cell) (ht : tc.all isNumCell = true)
    (hs : sc.all isNumCell = true) :
    (List.zipWith Cell.add tc sc).all isNumCell = true := by
  induction tc generalizing sc with
  | nil => rfl
  | cons a ta ih =>
    cases sc with
    | nil => rfl
    | cons b tb =>
      rw [List.all_cons, Bool.and_eq_true] at ht hs
      rw [List.zipWith_cons_cons, List.all_cons, Bool.and_eq_true]
      refine ⟨?_, ih tb ht.2 hs.2⟩
      obtain ⟨qa, hqa⟩ : ∃ q, a = .num q := by
        cases a with
        | num q => exact ⟨q, rfl⟩
        | str s => simp [isNumCell] at ht
        | date t => simp [isNumCell] at ht
        | nan => simp [isNumCell] at ht
      obtain ⟨qb, hqb⟩ : ∃ q, b = .num q := by
        cases b with
        | num q => exact ⟨q, rfl⟩
        | str s => simp [isNumCell] at hs
        | date t => simp [isNumCell] at hs
        | nan => simp [isNumCell] at hs
      rw [hqa, hqb]
      rfl

theorem cols_ne_nil_of_hasCol (df : DF) (l : Cell) (h : df.hasCol l = true) :
    df.cols ≠ [] := by
  intro he
  rw [DF.hasCol, he] at h
  simp at h

theorem nrows_of_rect (df : DF) (n : Nat) (h : ∀ c ∈ df.cols, c.2.length = n)
    (hne : df.cols ≠ []) : df.nrows = n := by
  cases hc : df.cols with
  | nil => exact absurd hc hne
  | cons c rest =>
    rw [DF.nrows, hc]
    exact h c (by rw [hc]; exact List.mem_cons_self _ _)

theorem addApply_conserve (target : String) (d : DF) (s : String) (scol : List Cell)
    (n i : Nat) (hnum : allNumDF d = true) (hnd : d.labels.Nodup)
    (hrect : ∀ c ∈ d.cols, c.2.length = n) (htg : d.hasCol (.str target) = true)
    (hi : i < n) (hsc : d.getCol (.str s) = some scol) (hneq : (s == target) = false) :
    allNumDF (addApply target d s scol) = true ∧ (addApply target d s scol).labels.Nodup ∧
    (∀ c ∈ (addApply target d s scol).cols, c.2.length = n) ∧
    (addApply target d s scol).hasCol (.str target) = true ∧
    rowSum (addApply target d s scol) i = rowSum d i := by
  obtain ⟨tc, htc⟩ := getCol_of_hasCol _ _ htg
  have hsnum : scol.all isNumCell = true := allNum_getCol hnum hsc
  have htnum : tc.all isNumCell = true := allNum_getCol hnum htc
  have hobj : isObjectDtype scol = false := isObj_false_of_allNum hsnum
  have hst : Cell.str s ≠ Cell.str target := by
    intro he
    rw [beq_eq_false_iff_ne] at hneq
    exact hneq (Cell.str.inj he)
  have hts : Cell.str target ≠ Cell.str s := fun he => hst he.symm
  obtain ⟨cT, hcTmem, hcTv⟩ := getCol_mem d _ tc htc
  obtain ⟨cS, hcSmem, hcSv⟩ := getCol_mem d _ scol hsc
  have htlen : tc.length = n := by rw [← hcTv]; exact hrect cT hcTmem
  have hslen : scol.length = n := by rw [← hcSv]; exact hrect cS hcSmem
  have hzlen : (List.zipWith Cell.add tc scol).length = n := by
    rw [List.length_zipWith, htlen, hslen, Nat.min_self]
  have hznum : (List.zipWith Cell.add tc scol).all isNumCell = true :=
    all_num_zipWith_add tc scol htnum hsnum
  unfold addApply
  rw [if_neg (by simp [hobj]), htc]
  simp only [Option.getD_some]
  have hset_nd : (d.setCol (.str target) (List.zipWith Cell.add tc scol)).labels.Nodup := by
    rw [DF.labels_setCol_pos _ _ _ htg]
    exact hnd
  have hset_getS : (d.setCol (.str target) (List.zipWith Cell.add tc scol)).getCol
      (.str s) = some scol := by
    rw [DF.getCol_setCol_ne _ _ _ _ hst]
    exact hsc
  refine ⟨?_, ?_, ?_, ?_, ?_⟩
  · exact allNumDF_dropAll _ _ (allNumDF_setCol d _ _ hnum hznum)
  · rw [labels_dropAll]
    exact (List.Nodup.filter _ hset_nd)
  · exact rect_dropAll _ _ n (rect_setCol d _ _ n hrect hzlen)
  · rw [DF.hasCol_dropAll, beq_eq_false_iff_ne.mpr hts, DF.hasCol_setCol, htg]
    simp
  · have e1 := rowSum_dropAll (d.setCol (.str target) (List.zipWith Cell.add tc scol))
      (.str s) scol i hset_nd hset_getS
    have e2 := rowSum_setCol_found d (.str target) (List.zipWith Cell.add tc scol) tc i htc
    have hz : (List.zipWith Cell.add tc scol).getD i .nan =
        Cell.add (tc.getD i .nan) (scol.getD i .nan) := getD_zipWith_add htlen hslen hi
    obtain ⟨qa, hqa⟩ := num_getD_of_all htnum (show i < tc.length by omega)
    obtain ⟨qb, hqb⟩ := num_getD_of_all hsnum (show i < scol.length by omega)
    rw [hz, hqa, hqb] at e2
    rw [hqb] at e1
    have : cellQ (Cell.add (Cell.num qa) (Cell.num qb)) = qa + qb := rfl
    rw [this] at e2
    have hca : cellQ (Cell.num qa) = qa := rfl
    have hcb : cellQ (Cell.num qb) = qb := rfl
    rw [hca] at e2
    rw [hcb] at e1
    linarith

theorem addStep_conserve (ex : List Cell) (target : String) (d : DF) (s : String)
    (n i : Nat) (hnum : allNumDF d = true) (hnd : d.labels.Nodup)
    (hrect : ∀ c ∈ d.cols, c.2.length = n) (htg : d.hasCol (.str target) = true)
    (hi : i < n) :
    allNumDF (addStep ex target d s) = true ∧ (addStep ex target d s).labels.Nodup ∧
    (∀ c ∈ (addStep ex target d s).cols, c.2.length = n) ∧
    (addStep ex target d s).hasCol (.str target) = true ∧
    rowSum (addStep ex target d s) i = rowSum d i := by
  unfold addStep
  by_cases hg : (ex.contains (.str s) && !(s == target)) = true
  · rw [if_pos hg]
    cases hsc : d.getCol (.str s) with
    | none => exact ⟨hnum, hnd, hrect, htg, rfl⟩
    | some scol =>
      have hneq : (s == target) = false := by
        rw [Bool.and_eq_true] at hg
        simpa using hg.2
      exact addApply_conserve target d s scol n i hnum hnd hrect htg hi hsc hneq
  · rw [if_neg hg]
    exact ⟨hnum, hnd, hrect, htg, rfl⟩

theorem any_beq_comm_cell (l : List Cell) (a : Cell) :
    (l.any fun x => x == a) = (l.any fun x => a == x) := by
  apply any_congr_fun
  intro x _
  by_cases hx : x = a
  · subst hx; simp
  · rw [beq_eq_false_iff_ne.mpr hx, beq_eq_false_iff_ne.mpr (fun he => hx he.symm)]

theorem addColsInit_conserve (df : DF) (target : String) (n i : Nat)
    (hnum : allNumDF df = true) (hnd : df.labels.Nodup)
    (hrect : ∀ c ∈ df.cols, c.2.length = n) (hn : df.nrows = n) (hi : i < n) :
    allNumDF (addColsInit df target) = true ∧ (addColsInit df target).labels.Nodup ∧
    (∀ c ∈ (addColsInit df target).cols, c.2.length = n) ∧
    (addColsInit df target).hasCol (.str target) = true ∧
    rowSum (addColsInit df target) i = rowSum df i := by
  unfold addColsInit
  have hrep_num : (List.replicate df.nrows (Cell.num 0)).all isNumCell = true := by
    rw [List.all_eq_true]
    intro v hv
    rw [List.eq_of_mem_replicate hv]
    rfl
  have hrep_len : (List.replicate df.nrows (Cell.num 0)).length = n := by
    rw [List.length_replicate, hn]
  by_cases hb : (!(df.labels.contains (.str target))) = true
  · rw [if_pos hb]
    have hnc : df.hasCol (.str target) = false := by
      rw [Bool.not_eq_true', List.contains_eq_any_beq] at hb
      rw [hasCol_eq_any_labels, any_beq_comm_cell]
      exact hb
    refine ⟨allNumDF_setCol df _ _ hnum hrep_num, ?_, rect_setCol df _ _ n hrect hrep_len,
      ?_, ?_⟩
    · rw [DF.labels_setCol_neg _ _ _ hnc]
      rw [List.nodup_append]
      refine ⟨hnd, List.nodup_singleton _, ?_⟩
      intro x hx hx2
      rw [List.mem_singleton.mp hx2] at hx
      have hct : df.hasCol (Cell.str target) = true := by
        rw [hasCol_eq_any_labels]
        exact List.any_eq_true.mpr ⟨_, hx, by simp⟩
      rw [hnc] at hct
      exact Bool.false_ne_true hct
    · rw [DF.hasCol_setCol]
      simp
    · rw [rowSum_setCol_new df _ _ i hnc, getD_replicate_lt (by omega)]
      simp [cellQ]
  · rw [if_neg hb]
    have htg : df.hasCol (.str target) = true := by
      have hcontains : df.labels.contains (Cell.str target) = true := by simpa using hb
      rw [List.contains_eq_any_beq] at hcontains
      rw [hasCol_eq_any_labels, any_beq_comm_cell]
      exact hcontains
    obtain ⟨tc, htc⟩ := getCol_of_hasCol _ _ htg
    have hobj : isObjectDtype ((df.getCol (.str target)).getD []) = false := by
      rw [htc]
      exact isObj_false_of_allNum (allNum_getCol hnum htc)
    rw [if_neg (by simp [hobj])]
    exact ⟨hnum, hnd, hrect, htg, rfl⟩

theorem add_cols_conserve (df : DF) (target : String) (srcs : List String) (n i : Nat)
    (hnum : allNumDF df = true) (hnd : df.labels.Nodup)
    (hrect : ∀ c ∈ df.cols, c.2.length = n) (hn : df.nrows = n) (hi : i < n) :
    allNumDF (add_cols df target srcs) = true ∧ (add_cols df target srcs).labels.Nodup ∧
    (∀ c ∈ (add_cols df target srcs).cols, c.2.length = n) ∧
    (add_cols df target srcs).nrows = n ∧
    rowSum (add_cols df target srcs) i = rowSum df i := by
  unfold add_cols
  obtain ⟨a1, a2, a3, a4, a5⟩ := addColsInit_conserve df target n i hnum hnd hrect hn hi
  have hfold : ∀ (ss : List String) (d : DF), allNumDF d = true → d.labels.Nodup →
      (∀ c ∈ d.cols, c.2.length = n) → d.hasCol (.str target) = true →
      allNumDF (ss.foldl (addStep df.labels target) d) = true ∧
      (ss.foldl (addStep df.labels target) d).labels.Nodup ∧
      (∀ c ∈ (ss.foldl (addStep df.labels target) d).cols, c.2.length = n) ∧
      (ss.foldl (addStep df.labels target) d).hasCol (.str target) = true ∧
      rowSum (ss.foldl (addStep df.labels target) d) i = rowSum d i := by
    intro ss
    induction ss with
    | nil => intro d h1 h2 h3 h4; exact ⟨h1, h2, h3, h4, rfl⟩
    | cons s rest ih =>
      intro d h1 h2 h3 h4
      rw [List.foldl_cons]
      obtain ⟨b1, b2, b3, b4, b5⟩ := addStep_conserve df.labels target d s n i h1 h2 h3 h4 hi
      obtain ⟨c1, c2, c3, c4, c5⟩ := ih _ b1 b2 b3 b4
      exact ⟨c1, c2, c3, c4, by rw [c5, b5]⟩
  obtain ⟨f1, f2, f3, f4, f5⟩ := hfold srcs _ a1 a2 a3 a4
  refine ⟨f1, f2, f3, ?_, by rw [f5, a5]⟩
  exact nrows_of_rect _ n f3 (cols_ne_nil_of_hasCol _ _ f4)

/-- C1 (amended): for a sheet with pairwise-distinct column labels all of
whose cells are plain numbers, `merge_columns` conserves every row's total:
the sum over all output columns equals the sum over all input columns.  (For
general sheets the unamended claim fails, in two ways the counterexamples
exhibit: an existing object-dtype target column is reset to zeros, losing
its numeric cells — `c1_counterexample` — and cells that failed numeric
coercion are `NaN`, not 0, and `NaN` absorbs the whole sum — see C5.) -/
theorem c1_row_totals (df : DF) (i : Nat) (hnum : allNumDF df = true)
    (hnd : df.labels.Nodup) (hrect : ∀ c ∈ df.cols, c.2.length = df.nrows)
    (hi : i < df.nrows) : rowSum (merge_columns df) i = rowSum df i := by
  unfold merge_columns
  have hgen : ∀ (specs : List (String × List String)) (d : DF), allNumDF d = true →
      d.labels.Nodup → (∀ c ∈ d.cols, c.2.length = df.nrows) → d.nrows = df.nrows →
      rowSum (specs.foldl (fun d p => add_cols d p.1 p.2) d) i = rowSum d i := by
    intro specs
    induction specs with
    | nil => intro d _ _ _ _; rfl
    | cons p rest ih =>
      intro d h1 h2 h3 h4
      rw [List.foldl_cons]
      obtain ⟨b1, b2, b3, b4, b5⟩ := add_cols_conserve d p.1 p.2 df.nrows i h1 h2 h3 h4 hi
      rw [ih _ b1 b2 b3 b4, b5]
  exact hgen mergeSpecs df hnum hnd hrect rfl

/-- A sheet whose `'Rope'` column is object-dtype (it mixes a number and a
string). -/
def exRope : DF := ⟨[(.str "Rope", [.num 5, .str "x"])]⟩

/-- C1, counterexample: the `'Rope'` column of `exRope` has object dtype, so
`_add_cols` resets it to zeros (line 171-172) before summing: the numeric 5
of row 0 vanishes from every output column and the row total drops from 5
to 0 — numeric value is lost outside the `'Other'` bucket. -/
theorem c1_counterexample : rowSum (merge_columns exRope) 0 ≠ rowSum exRope 0 := by
  with_unfolding_all decide

/-- An all-numeric sheet with two columns of the `'Cans'` group. -/
def exCans : DF := ⟨[(.str "Beer Cans", [.num 2]), (.str "Soda Cans", [.num 3])]⟩

/-- C1, witness: the amended theorem at the concrete all-numeric sheet
(`2 + 3` before, `5` in `'Cans'` plus zeros after). -/
theorem c1_row_totals_witness : rowSum (merge_columns exCans) 0 = rowSum exCans 0 :=
  c1_row_totals exCans 0 (by with_unfolding_all decide) (by with_unfolding_all decide)
    (by with_unfolding_all decide) (by with_unfolding_all decide)

/-! ## C5: what a matched source cell contributes to the destination sum -/

/-- A cell that is either a plain number or a string (the only shapes
`_add_cols` handles without producing `NaN`). -/
def numOrStr (v : Cell) : Bool := isNumCell v || isStrCell v

/-- The numeric contribution of source `s` to the destination at row `i`:
under the exact guard of `_add_cols` (source present in the entry-time label
list and distinct from the target), the `cellQ` reading of the source cell —
a string cell reads 0, matching the `isinstance(x, str)` zeroing of line
178-179. -/
def srcCellQ (df : DF) (target : String) (i : Nat) (s : String) : ℚ :=
  if df.labels.contains (.str s) && !(s == target) then
    cellQ (((df.getCol (.str s)).getD []).getD i .nan)
  else 0

/-- Total contribution of the source list to the destination at row `i`. -/
def srcSum (df : DF) (target : String) (srcs : List String) (i : Nat) : ℚ :=
  (srcs.map (srcCellQ df target i)).sum

/-- The destination's starting value at row `i`: 0 when the target column is
created fresh or reset (absent, or object dtype — lines 166-172), otherwise
its existing numeric value. -/
def targetInit (df : DF) (target : String) (i : Nat) : ℚ :=
  match df.getCol (.str target) with
  | none => 0
  | some tc => if isObjectDtype tc then 0 else cellQ (tc.getD i .nan)

/-- Every matched source cell is a number or a string (no `NaN`, no
timestamp): the premise under which the "contributes its `cellQ`, strings
contribute 0" reading of `_add_cols` is exact. -/
def c5src_ok (df : DF) (srcs : List String) : Bool :=
  srcs.all (fun s => ((df.getCol (.str s)).getD []).all numOrStr)

/-- The pre-existing target column, when kept (not object dtype), is all
numeric. -/
def c5tgt_ok (df : DF) (target : String) : Bool :=
  match df.getCol (.str target) with
  | none => true
  | some tc => isObjectDtype tc || tc.all isNumCell

theorem zeroStrings_length (sc : List Cell) : (zeroStrings sc).length = sc.length :=
  List.length_map _ _

theorem zeroStrings_getD (sc : List Cell) (i : Nat) (hi : i < sc.length) :
    (zeroStrings sc).getD i .nan =
      (match sc.getD i .nan with | .str _ => .num 0 | w => w) := by
  rw [zeroStrings, List.getD_eq_getElem?_getD, List.getElem?_map,
    List.getElem?_eq_getElem hi, List.getD_eq_getElem?_getD, List.getElem?_eq_getElem hi]
  rfl

/-- The coerced source cell of `addApply` at a valid row index is the number
`cellQ` reads off the raw cell, provided the raw column mixes only numbers
and strings. -/
theorem coerced_getD (sc : List Cell) (i : Nat) (hall : sc.all numOrStr = true)
    (hi : i < sc.length) :
    (if isObjectDtype sc then zeroStrings sc else sc).getD i .nan =
      .num (cellQ (sc.getD i .nan)) := by
  have hmem : sc.getD i .nan ∈ sc := getD_mem_of_lt hi
  have hv := List.all_eq_true.mp hall _ hmem
  by_cases hobj : isObjectDtype sc = true
  · rw [if_pos hobj, zeroStrings_getD sc i hi]
    cases h : sc.getD i .nan with
    | num q => rfl
    | str s => rfl
    | date t => rw [h] at hv; simp [numOrStr, isNumCell, isStrCell] at hv
    | nan => rw [h] at hv; simp [numOrStr, isNumCell, isStrCell] at hv
  · rw [if_neg hobj]
    cases h : sc.getD i .nan with
    | num q => rfl
    | str s =>
      exfalso
      apply hobj
      rw [isObjectDtype, List.any_eq_true]
      exact ⟨_, hmem, by rw [h]; rfl⟩
    | date t => rw [h] at hv; simp [numOrStr, isNumCell, isStrCell] at hv
    | nan => rw [h] at hv; simp [numOrStr, isNumCell, isStrCell] at hv

theorem c5_fold (df : DF) (target : String) (n i : Nat) (hi : i < n) :
    ∀ (ss : List String) (d : DF) (q : ℚ),
      d.labels.Nodup →
      (∀ c ∈ d.cols, c.2.length = n) →
      (∃ tc, d.getCol (.str target) = some tc ∧ tc.length = n ∧ tc.getD i .nan = .num q) →
      ss.Nodup →
      (∀ s ∈ ss, s ≠ target → d.getCol (.str s) = df.getCol (.str s)) →
      (∀ s ∈ ss, ((df.getCol (.str s)).getD []).all numOrStr = true) →
      cellAt (ss.foldl (addStep df.labels target) d) (.str target) i =
        .num (q + srcSum df target ss i) := by
  intro ss
  induction ss with
  | nil =>
    intro d q _ _ htc _ _ _
    obtain ⟨tc, htc, _, hval⟩ := htc
    rw [List.foldl_nil, cellAt, htc, Option.getD_some, hval, srcSum, List.map_nil,
      List.sum_nil, Rat.add_zero]
  | cons s rest ih =>
    intro d q hnd hrect htc hssnd hpres hok
    obtain ⟨tc, htc, htlen, hval⟩ := htc
    rw [List.nodup_cons] at hssnd
    have hsum_cons : srcSum df target (s :: rest) i =
        srcCellQ df target i s + srcSum df target rest i := by
      rw [srcSum, List.map_cons, List.sum_cons, srcSum]
    rw [List.foldl_cons]
    by_cases hg : (df.labels.contains (.str s) && !(s == target)) = true
    · have hneq : s ≠ target := by
        rw [Bool.and_eq_true] at hg
        simpa using hg.2
      have hdfcol : df.hasCol (.str s) = true := by
        rw [Bool.and_eq_true, List.contains_eq_any_beq] at hg
        rw [hasCol_eq_any_labels, any_beq_comm_cell]
        exact hg.1
      obtain ⟨sc, hsc_df⟩ := getCol_of_hasCol _ _ hdfcol
      have hsc_d : d.getCol (.str s) = some sc := by
        rw [hpres s (List.mem_cons_self _ _) hneq]
        exact hsc_df
      have hst : Cell.str s ≠ Cell.str target := fun he => hneq (Cell.str.inj he)
      have hts : Cell.str target ≠ Cell.str s := fun he => hst he.symm
      obtain ⟨cS, hcSmem, hcSv⟩ := getCol_mem d _ sc hsc_d
      have hslen : sc.length = n := by rw [← hcSv]; exact hrect cS hcSmem
      have hall : sc.all numOrStr = true := by
        have := hok s (List.mem_cons_self _ _)
        rw [hsc_df, Option.getD_some] at this
        exact this
      rw [addStep, if_pos hg, hsc_d]
      simp only [addApply]
      rw [htc]
      simp only [Option.getD_some]
      set scol := if isObjectDtype sc then zeroStrings sc else sc with hscol
      have hscol_len : scol.length = n := by
        rw [hscol]
        by_cases hobj : isObjectDtype sc = true
        · rw [if_pos hobj, zeroStrings_length, hslen]
        · rw [if_neg hobj, hslen]
      have hzlen : (List.zipWith Cell.add tc scol).length = n := by
        rw [List.length_zipWith, htlen, hscol_len, Nat.min_self]
      have htg : d.hasCol (.str target) = true := hasCol_of_getCol _ _ _ htc
      set d' := (d.setCol (.str target) (List.zipWith Cell.add tc scol)).dropColAll
        (.str s) with hd'
      have hd'_tc : d'.getCol (.str target) = some (List.zipWith Cell.add tc scol) := by
        rw [hd', DF.getCol_dropAll_ne _ _ _ hts, DF.getCol_setCol_self]
      have hd'_val : (List.zipWith Cell.add tc scol).getD i .nan =
          .num (q + cellQ (sc.getD i .nan)) := by
        rw [getD_zipWith_add htlen hscol_len hi, hval, hscol,
          coerced_getD sc i hall (by omega)]
        rfl
      have hd'_nd : d'.labels.Nodup := by
        rw [hd', labels_dropAll]
        apply List.Nodup.filter
        rw [DF.labels_setCol_pos _ _ _ htg]
        exact hnd
      have hd'_rect : ∀ c ∈ d'.cols, c.2.length = n := by
        rw [hd']
        exact rect_dropAll _ _ n (rect_setCol d _ _ n hrect hzlen)
      have hd'_pres : ∀ s' ∈ rest, s' ≠ target →
          d'.getCol (.str s') = df.getCol (.str s') := by
        intro s' hs' hne
        have hss : Cell.str s' ≠ Cell.str s := by
          intro he
          exact hssnd.1 (Cell.str.inj he ▸ hs')
        have hstg : Cell.str s' ≠ Cell.str target := fun he => hne (Cell.str.inj he)
        rw [hd', DF.getCol_dropAll_ne _ _ _ hss, DF.getCol_setCol_ne _ _ _ _ hstg]
        exact hpres s' (List.mem_cons_of_mem _ hs') hne
      have := ih d' (q + cellQ (sc.getD i .nan)) hd'_nd hd'_rect
        ⟨_, hd'_tc, hzlen, hd'_val⟩ hssnd.2 hd'_pres
        (fun s' hs' => hok s' (List.mem_cons_of_mem _ hs'))
      rw [this, hsum_cons, srcCellQ, if_pos hg, hsc_df, Option.getD_some]
      rw [Rat.add_assoc]
    · rw [addStep, if_neg hg]
      have := ih d q hnd hrect ⟨tc, htc, htlen, hval⟩ hssnd.2
        (fun s' hs' => hpres s' (List.mem_cons_of_mem _ hs'))
        (fun s' hs' => hok s' (List.mem_cons_of_mem _ hs'))
      rw [this, hsum_cons, srcCellQ, if_neg hg, Rat.zero_add]

theorem c5_init (df : DF) (target : String) (n i : Nat)
    (hnd : df.labels.Nodup) (hrect : ∀ c ∈ df.cols, c.2.length = n)
    (hn : df.nrows = n) (hi : i < n) (htgt : c5tgt_ok df target = true) :
    (addColsInit df target).labels.Nodup ∧
    (∀ c ∈ (addColsInit df target).cols, c.2.length = n) ∧
    (∃ tc, (addColsInit df target).getCol (.str target) = some tc ∧ tc.length = n ∧
      tc.getD i .nan = .num (targetInit df target i)) ∧
    (∀ s, s ≠ target → (addColsInit df target).getCol (.str s) = df.getCol (.str s)) := by
  have hrep_len : (List.replicate df.nrows (Cell.num 0)).length = n := by
    rw [List.length_replicate, hn]
  have hrep_getD : (List.replicate df.nrows (Cell.num 0)).getD i .nan = .num 0 :=
    getD_replicate_lt (by omega)
  unfold addColsInit
  by_cases hb : (!(df.labels.contains (.str target))) = true
  · rw [if_pos hb]
    have hnc : df.hasCol (.str target) = false := by
      rw [Bool.not_eq_true', List.contains_eq_any_beq] at hb
      rw [hasCol_eq_any_labels, any_beq_comm_cell]
      exact hb
    have hti : targetInit df target i = 0 := by
      rw [targetInit, getCol_eq_none_of_not_hasCol _ _ hnc]
    refine ⟨?_, rect_setCol df _ _ n hrect hrep_len,
      ⟨_, DF.getCol_setCol_self df _ _, hrep_len, by rw [hrep_getD, hti]⟩, ?_⟩
    · rw [DF.labels_setCol_neg _ _ _ hnc, List.nodup_append]
      refine ⟨hnd, List.nodup_singleton _, ?_⟩
      intro x hx hx2
      rw [List.mem_singleton.mp hx2] at hx
      have hct : df.hasCol (Cell.str target) = true := by
        rw [hasCol_eq_any_labels]
        exact List.any_eq_true.mpr ⟨_, hx, by simp⟩
      rw [hnc] at hct
      exact Bool.false_ne_true hct
    · intro s hne
      exact DF.getCol_setCol_ne df _ _ _ (fun he => hne (Cell.str.inj he))
  · rw [if_neg hb]
    have htg : df.hasCol (.str target) = true := by
      have hcontains : df.labels.contains (Cell.str target) = true := by simpa using hb
      rw [List.contains_eq_any_beq] at hcontains
      rw [hasCol_eq_any_labels, any_beq_comm_cell]
      exact hcontains
    obtain ⟨tc, htc⟩ := getCol_of_hasCol _ _ htg
    by_cases hobj : isObjectDtype tc = true
    · rw [if_pos (by rw [htc, Option.getD_some]; exact hobj)]
      have hti : targetInit df target i = 0 := by
        rw [targetInit, htc]
        simp only [hobj, if_pos]
      refine ⟨?_, rect_setCol df _ _ n hrect hrep_len,
        ⟨_, DF.getCol_setCol_self df _ _, hrep_len, by rw [hrep_getD, hti]⟩, ?_⟩
      · rw [DF.labels_setCol_pos _ _ _ htg]
        exact hnd
      · intro s hne
        exact DF.getCol_setCol_ne df _ _ _ (fun he => hne (Cell.str.inj he))
    · rw [if_neg (by rw [htc, Option.getD_some]; exact hobj)]
      obtain ⟨cT, hcTmem, hcTv⟩ := getCol_mem df _ tc htc
      have htlen : tc.length = n := by rw [← hcTv]; exact hrect cT hcTmem
      have hnum : tc.all isNumCell = true := by
        rw [c5tgt_ok, htc] at htgt
        rcases Bool.or_eq_true_iff.mp htgt with h | h
        · exact absurd h (by simp [hobj])
        · exact h
      obtain ⟨q, hq⟩ := num_getD_of_all hnum (show i < tc.length by omega)
      have hti : targetInit df target i = q := by
        rw [targetInit, htc]
        simp only [hobj, Bool.false_eq_true, if_neg, if_false]
        rw [hq]
        rfl
      exact ⟨hnd, hrect, ⟨tc, htc, htlen, by rw [hq, hti]⟩, fun s hne => rfl⟩

/-- C5 (amended): in `_add_cols`, a STRING cell mixed into a matched
object-dtype source column contributes exactly 0 to the destination's
elementwise sum and raises no error (the `isinstance(x, str)` zeroing,
lines 177-179): under the stated shape conditions — every matched source
cell a plain number or string, the kept target column numeric — the
destination cell at row `i` is exactly the target's starting value plus the
sum of the `cellQ` readings of the matched source cells, strings reading 0.
The unamended claim is false for cells that FAIL NUMERIC COERCION upstream:
`make_numeric_cols_numeric_again` turns them into `NaN`, not 0 (the
`fillna(0)` at lines 563-564 is commented out), and `NaN` absorbs the
destination sum — `c5_counterexample` shows a row losing its parseable
cells' sum to a missing value. -/
theorem c5_unparseable_cells (df : DF) (target : String) (srcs : List String) (n i : Nat)
    (hnd : df.labels.Nodup) (hrect : ∀ c ∈ df.cols, c.2.length = n) (hn : df.nrows = n)
    (hi : i < n) (hsnd : srcs.Nodup) (hsrc : c5src_ok df srcs = true)
    (htgt : c5tgt_ok df target = true) :
    cellAt (add_cols df target srcs) (.str target) i =
      .num (targetInit df target i + srcSum df target srcs i) := by
  obtain ⟨h1, h2, h3, h4⟩ := c5_init df target n i hnd hrect hn hi htgt
  rw [add_cols]
  exact c5_fold df target n i hi srcs _ _ h1 h2 h3 hsnd (fun s _ hne => h4 s hne)
    (fun s hs => List.all_eq_true.mp hsrc s hs)

/-- A sheet whose `'Beverage Cans'` cell `"abc"` fails numeric coercion
while its `'Beer Cans'` cell 3 is parseable; both are sources of the
`'Cans'` destination. -/
def exC5 : DF :=
  ⟨[(.str "Date", [.date 1]), (.str "Cleanup Site", [.str "X"]),
    (.str "Beverage Cans", [.str "abc"]), (.str "Beer Cans", [.num 3])]⟩

/-- The `'Cans'` column of the reconciled output, when `read_sheet`
succeeded. -/
def okCansCol (r : Except CleanupErr DF) : Option (List Cell) :=
  match r with
  | .ok o => (merge_columns o).getCol (.str "Cans")
  | .error _ => none

/-- C5, counterexample: the unparseable `"abc"` has become `NaN` by the time
`_add_cols` sums (coerced by `make_numeric_cols_numeric_again`, which the
`_add_cols` string-zeroing does not touch), so the row's `'Cans'` cell is
`NaN` — a missing value — instead of the sum 3 of its parseable cells. -/
theorem c5_counterexample :
    okCansCol (read_sheet exC5) = some [.nan] ∧
      okCansCol (read_sheet exC5) ≠ some [.num 3] := by
  constructor
  · with_unfolding_all decide
  · with_unfolding_all decide

/-- A sheet with a string cell mixed into a numeric source column. -/
def exC5W : DF :=
  ⟨[(.str "A", [.num 4, .str "oops"]), (.str "B", [.num 2, .num 5])]⟩

/-- C5, witness: the amended theorem at row 1 of `exC5W`: the string cell
of `'A'` contributes 0, so the fresh target gets `0 + (0 + 5)`. -/
theorem c5_unparseable_cells_witness :
    cellAt (add_cols exC5W "T" ["A", "B"]) (.str "T") 1 =
      .num (targetInit exC5W "T" 1 + srcSum exC5W "T" ["A", "B"] 1) :=
  c5_unparseable_cells exC5W "T" ["A", "B"] 2 1 (by with_unfolding_all decide)
    (by with_unfolding_all decide) (by with_unfolding_all decide)
    (by with_unfolding_all decide) (by with_unfolding_all decide)
    (by with_unfolding_all decide) (by with_unfolding_all decide)
